import Mathlib

/-!
Verification development for the studiolibrary blendshape plugin
(`src/mutils/blendshape.py`, `src/studiolibrarymaya/blendshapeitem.py`).

The Python code drives the Maya host through `maya.cmds`.  The embedding
below models the Maya scene explicitly (objects, animation curve nodes,
selected animation layers, connections) and translates the module's
functions into state-passing Lean functions.  Host-side helpers that live
outside this repository's sources (`mutils.Attribute`,
`mutils.bakeConnected`, `mutils.selectedObjectsFrameRange`,
`mutils.getDurationFromNodes`) are modelled from the spec; each such
definition says so in its doc comment.
-/

namespace StudioLib

/-- Constant `MIN_TIME_LIMIT = -10000` from blendshape.py. -/
def MIN_TIME_LIMIT : Int := -10000

/-- Constant `MAX_TIME_LIMIT = 100000` from blendshape.py. -/
def MAX_TIME_LIMIT : Int := 100000

/-- Constant `DEFAULT_FILE_TYPE = "mayaBinary"` from blendshape.py. -/
def DEFAULT_FILE_TYPE : String := "mayaBinary"

/-- Constant `BLEND_SHAPE_TYPE = "blendShape"` from blendshape.py. -/
def BLEND_SHAPE_TYPE : String := "blendShape"

/-- Python-dict style association list update: replace the value stored at
an existing key (dict keys are unique in Python, so replacing the first
occurrence models `d[k] = v`), otherwise append the binding at the end. -/
def setAssoc {α : Type} : List (String × α) → String → α → List (String × α)
  | [], k, v => [(k, v)]
  | p :: t, k, v => if p.1 = k then (k, v) :: t else p :: setAssoc t k v

/-- Python-dict style association list lookup. -/
def lookupAssoc {α : Type} (l : List (String × α)) (k : String) : Option α :=
  (l.find? (fun p => p.1 = k)).map (fun p => p.2)

theorem lookupAssoc_nil {α : Type} (k : String) :
    lookupAssoc ([] : List (String × α)) k = none := rfl

theorem lookupAssoc_cons {α : Type} (p : String × α) (t : List (String × α))
    (k : String) :
    lookupAssoc (p :: t) k = if p.1 = k then some p.2 else lookupAssoc t k := by
  by_cases h : p.1 = k <;> simp [lookupAssoc, List.find?, h]

theorem lookupAssoc_setAssoc_self {α : Type} (l : List (String × α))
    (k : String) (v : α) : lookupAssoc (setAssoc l k v) k = some v := by
  induction l with
  | nil => simp [setAssoc, lookupAssoc, List.find?]
  | cons p t ih =>
    by_cases h : p.1 = k
    · simp [setAssoc, h, lookupAssoc, List.find?]
    · simp only [setAssoc, h, if_false]
      rw [lookupAssoc_cons]
      simp [h, ih]

theorem lookupAssoc_setAssoc_other {α : Type} (l : List (String × α))
    (k k' : String) (v : α) (h : k' ≠ k) :
    lookupAssoc (setAssoc l k v) k' = lookupAssoc l k' := by
  induction l with
  | nil =>
    have : ¬ (k = k') := fun hc => h hc.symm
    simp [setAssoc, lookupAssoc, List.find?, this]
  | cons p t ih =>
    by_cases hp : p.1 = k
    · have hk : ¬ (k = k') := fun hc => h hc.symm
      have hp' : ¬ (p.1 = k') := by rw [hp]; exact hk
      rw [setAssoc]
      simp only [hp, if_true]
      rw [lookupAssoc_cons, lookupAssoc_cons]
      simp [hk, hp']
    · rw [setAssoc]
      simp only [hp, if_false]
      rw [lookupAssoc_cons, lookupAssoc_cons, ih]

/-! ## Maya scene model -/

/-- Maya node names.  User-authored nodes carry plain string names; nodes
created during `Blendshape.save` get Maya-generated unique names, modelled
as a tag (the requested base name, e.g. "CURVE") plus a counter.  Maya
guarantees the generated name is distinct from every existing node name,
which the two-constructor representation makes definitional. -/
inductive NodeName
  | user (s : String)
  | gen (tag : String) (k : Nat)
deriving Repr, DecidableEq

/-- Whether a node name is a Maya-generated "CURVE" name (from
`duplicate(name, name="CURVE", ...)`, `rename(dstCurve, "CURVE")` or a
pasted animation curve). -/
def NodeName.isCurveGen : NodeName → Bool
  | .user _ => false
  | .gen tag _ => tag = "CURVE"

/-- An animation curve node: its keyframe times plus the display
attributes that `Blendshape.save` copies across
(`preInfinity`, `postInfinity`, `curveColor`, `useCurveColor`). -/
structure AnimCurve where
  keys : List Int
  preInfinity : Int := 0
  postInfinity : Int := 0
  curveColor : Int := 0
  useCurveColor : Bool := false
deriving Repr, DecidableEq

/-- A named animation curve node in the scene. -/
structure CurveNode where
  name : NodeName
  curve : AnimCurve
deriving Repr, DecidableEq

/-- Scene-side data for one attribute of an object, as queried through
`mutils.Attribute` (type name and current value; the value is `none` when
Maya returns `None` for the query). -/
structure AttrInfo where
  typeName : String
  value : Option Int
deriving Repr, DecidableEq

/-- A Maya scene object (transform, blendShape node, ...).
`blendAliases` models the alias table of the `.weight` array of a
blendShape node: entry `i` is `aliasAttr(name + ".weight[i]", query=True)`
(`none` when the weight has no alias).  `attrCurveMap` maps an attribute
name to the animation curve node driving it, when animated. -/
structure MayaObject where
  name : NodeName
  nodeType : String
  blendAliases : List (Option String) := []
  keyableAttrs : List String := []
  unlockedKeyableAttrs : List String := []
  drivenAttrs : List String := []
  attrCurveMap : List (String × NodeName) := []
  attrInfo : List (String × AttrInfo) := []
deriving Repr, DecidableEq

/-- A selected animation layer (`$gSelectedAnimLayers`) with its lock
state. -/
structure AnimLayer where
  name : String
  locked : Bool
deriving Repr, DecidableEq

/-- The Maya scene: objects, free-standing animation curve nodes, the
selected animation layers, and the connection graph (source plug,
destination plug) that `bakeConnected` bakes away. -/
structure Scene where
  objects : List MayaObject
  curveNodes : List CurveNode := []
  selectedAnimLayers : List AnimLayer := []
  connections : List (String × String) := []
deriving Repr, DecidableEq

/-- A file written to disk by `Blendshape.save`: the JSON metadata file
(`pose.json`) or the exported Maya scene fragment
(`animation.ma` / `animation.mb`, holding the selected curve nodes and
their keyframes). -/
inductive DiskFile
  | poseJson (metadata : List (String × Int))
  | mayaExport (curves : List (NodeName × List Int))
deriving Repr, DecidableEq

/-- The full mutable state threaded through `Blendshape.save`: the scene,
the disk (a write log), the pending undo-chunk snapshot, and the counter
used for Maya-generated unique node names. -/
structure MayaState where
  scene : Scene
  disk : List (String × DiskFile) := []
  undoSnapshot : Option Scene := none
  counter : Nat := 0
deriving Repr, DecidableEq

/-- Find a scene object by name (`maya.cmds.ls(name)`). -/
def lookupObject (s : Scene) (n : NodeName) : Option MayaObject :=
  s.objects.find? (fun o => o.name = n)

/-- Find an animation curve node by name. -/
def lookupCurveNode (s : Scene) (n : NodeName) : Option CurveNode :=
  s.curveNodes.find? (fun c => c.name = n)

/-- Node type as reported by `maya.cmds.ls(name, showType=True)[1]`. -/
def nodeTypeOf (s : Scene) (n : NodeName) : String :=
  ((lookupObject s n).map (fun o => o.nodeType)).getD ""

/-- Keyframes of the curve node with the given name (empty when absent). -/
def curveKeysOf (s : Scene) (n : NodeName) : List Int :=
  ((lookupCurveNode s n).map (fun c => c.curve.keys)).getD []

/-! ## Host command layer (`maya.cmds` operations used by save) -/

/-- Modelled from the spec: `mutils.Attribute` (it lives outside this
repository's sources) wraps an object/attribute pair and reads the
attribute's state through the host command API.  An `Attribute` built from
a `None` alias name (as `getBlendshapeParamList` can produce) has no
queryable state and is invalid. -/
structure Attribute where
  obj : NodeName
  attr : Option String
deriving Repr, DecidableEq

/-- Scene-side record backing an `Attribute`, when the attribute exists. -/
def Attribute.infoOf (s : Scene) (a : Attribute) : Option AttrInfo :=
  a.attr.bind (fun t => (lookupObject s a.obj).bind (fun o => lookupAssoc o.attrInfo t))

/-- Modelled from the spec: `Attribute.isValid` — the attribute exists on
the object and can be queried. -/
def Attribute.isValid (s : Scene) (a : Attribute) : Bool :=
  (a.infoOf s).isSome

/-- Modelled from the spec: `Attribute.value` — the attribute's current
value as returned by the host (possibly `None`). -/
def Attribute.value (s : Scene) (a : Attribute) : Option Int :=
  (a.infoOf s).bind (fun i => i.value)

/-- Modelled from the spec: `Attribute.type` — the attribute's type name. -/
def Attribute.typeName (s : Scene) (a : Attribute) : String :=
  ((a.infoOf s).map (fun i => i.typeName)).getD ""

/-- Modelled from the spec: `Attribute.attr` — the plain attribute name. -/
def Attribute.attrName (a : Attribute) : String :=
  a.attr.getD ""

/-- Modelled from the spec: `Attribute.animCurve` — the animation curve
node connected to the attribute, if any. -/
def Attribute.animCurve (s : Scene) (a : Attribute) : Option NodeName :=
  a.attr.bind (fun t => (lookupObject s a.obj).bind (fun o => lookupAssoc o.attrCurveMap t))

/-- Maya-generated unique name with the given base tag; bumps the state's
name counter. -/
def freshName (st : MayaState) (tag : String) : NodeName × MayaState :=
  (NodeName.gen tag st.counter, { st with counter := st.counter + 1 })

/-- Replace a whole scene inside the state. -/
def setScene (st : MayaState) (s : Scene) : MayaState := { st with scene := s }

/-- Keyframe clipboard produced by
`maya.cmds.copyKey(name, time=(start, end), includeUpperBound=False, option="keys")`:
for every animated attribute of the object, the keys lying in
`[start, end)` (the upper bound is excluded).  The Python call is truthy
exactly when the clipboard is non-empty. -/
def copyKey (s : Scene) (n : NodeName) (startF endF : Int) :
    List (String × List Int) :=
  match lookupObject s n with
  | none => []
  | some o =>
    o.attrCurveMap.filterMap (fun p =>
      let ks := (curveKeysOf s p.2).filter (fun k => startF ≤ k ∧ k < endF)
      if ks = [] then none else some (p.1, ks))

/-- `maya.cmds.duplicate(name, name="CURVE", parentOnly=True)`: a copy of
the node under a fresh Maya-generated name; `parentOnly` duplicates the
node without its input connections, so the duplicate carries no animation
curves. -/
def duplicate (st : MayaState) (n : NodeName) : NodeName × MayaState :=
  let fn := freshName st "CURVE"
  match lookupObject fn.2.scene n with
  | none => fn
  | some o =>
    (fn.1,
      setScene fn.2 { fn.2.scene with
        objects := fn.2.scene.objects ++ [{ o with name := fn.1, attrCurveMap := [] }] })

/-- `maya.cmds.pasteKey(transform)`: paste the clipboard onto the node,
creating one fresh animation curve node per clipboard attribute and
connecting it to that attribute. -/
def pasteKeyStep (dup : NodeName) (st : MayaState) (p : String × List Int) :
    MayaState :=
  let fn := freshName st "CURVE"
  setScene fn.2 { fn.2.scene with
    curveNodes := fn.2.scene.curveNodes ++ [{ name := fn.1, curve := { keys := p.2 } }],
    objects := fn.2.scene.objects.map (fun o =>
      if o.name = dup then { o with attrCurveMap := setAssoc o.attrCurveMap p.1 fn.1 } else o) }

def pasteKey (st : MayaState) (dup : NodeName) (clip : List (String × List Int)) :
    MayaState :=
  clip.foldl (pasteKeyStep dup) st

/-- `maya.cmds.rename(dstCurve, "CURVE")`: give the curve node a fresh
Maya-generated name based on "CURVE". -/
def renameCurve (st : MayaState) (old : NodeName) : NodeName × MayaState :=
  let fn := freshName st "CURVE"
  (fn.1,
    setScene fn.2 { fn.2.scene with
      curveNodes := fn.2.scene.curveNodes.map (fun c =>
        if c.name = old then { c with name := fn.1 } else c) })

/-- Update one curve node in place by name. -/
def mapCurveNode (st : MayaState) (n : NodeName) (f : AnimCurve → AnimCurve) :
    MayaState :=
  setScene st { st.scene with
    curveNodes := st.scene.curveNodes.map (fun c =>
      if c.name = n then { c with curve := f c.curve } else c) }

/-- The `getAttr`/`setAttr` block of `Blendshape.save` that copies
`preInfinity`, `postInfinity`, `curveColor` and `useCurveColor` from the
source curve onto the duplicated curve. -/
def copyCurveDisplayAttrs (st : MayaState) (src dst : NodeName) : MayaState :=
  match lookupCurveNode st.scene src with
  | none => st
  | some c =>
    mapCurveNode st dst (fun d =>
      { d with
        preInfinity := c.curve.preInfinity
        postInfinity := c.curve.postInfinity
        curveColor := c.curve.curveColor
        useCurveColor := c.curve.useCurveColor })

/-- `maya.cmds.keyframe(curve, query=True, time=(a, b), keyframeCount=True)`:
number of keys of the curve node inside `[a, b]`. -/
def keyframeCount (s : Scene) (n : NodeName) (a b : Int) : Nat :=
  ((curveKeysOf s n).filter (fun k => a ≤ k ∧ k ≤ b)).length

/-- `maya.cmds.cutKey(curve, time=(a, b))`: remove the curve node's keys
inside `[a, b]`. -/
def cutKey (st : MayaState) (n : NodeName) (a b : Int) : MayaState :=
  mapCurveNode st n (fun c => { c with keys := c.keys.filter (fun k => ¬ (a ≤ k ∧ k ≤ b)) })

/-- `maya.cmds.delete(deleteObjects)`: remove every scene node whose name
is in the list. -/
def deleteNodes (st : MayaState) (names : List NodeName) : MayaState :=
  setScene st { st.scene with
    objects := st.scene.objects.filter (fun o => ¬ o.name ∈ names),
    curveNodes := st.scene.curveNodes.filter (fun c => ¬ c.name ∈ names) }

/-- `maya.cmds.undoInfo(openChunk=True)`: start recording an undo chunk,
remembering the scene as it stands. -/
def undoOpenChunk (st : MayaState) : MayaState :=
  { st with undoSnapshot := some st.scene }

/-- `maya.cmds.undoInfo(closeChunk=True)`: finish the chunk (the recorded
snapshot stays available for `undo`). -/
def undoCloseChunk (st : MayaState) : MayaState := st

/-- `maya.cmds.undo()`: revert the scene to the state recorded at the
start of the last chunk.  Disk files are not undoable. -/
def undoCmd (st : MayaState) : MayaState :=
  { st with scene := st.undoSnapshot.getD st.scene, undoSnapshot := none }

/-- Write a file to disk (`mutils.Pose.save` / `maya.cmds.file(..., exportSelected=True)`);
the disk is a write log, so a later write to the same path shadows an
earlier one. -/
def writeDisk (st : MayaState) (path : String) (f : DiskFile) : MayaState :=
  { st with disk := st.disk ++ [(path, f)] }

/-! ## Module-level helpers of blendshape.py -/

/-- Embedding of `validateAnimLayers()`: returns the error message raised
as an `AnimationTransferError`, or `none` when the selected animation
layers pass the check. -/
def validateAnimLayers (layers : List AnimLayer) : Option String :=
  if 1 < layers.length then
    some "More than one animation layer is selected! Please select only one animation layer for export!"
  else if layers.length = 1 ∧ ((layers.head?.map (fun l => l.locked)).getD false) then
    some "Cannot export an animation layer that is locked! Please unlock the anim layer before exporting animation!"
  else
    none

/-- Keyframes of all animation curves attached to one object. -/
def objectKeyFrames (s : Scene) (n : String) : List Int :=
  match lookupObject s (.user n) with
  | none => []
  | some o => o.attrCurveMap.foldr (fun p acc => curveKeysOf s p.2 ++ acc) []

/-- Keyframes of all animation curves of the listed objects. -/
def allKeyFrames (s : Scene) (objs : List String) : List Int :=
  objs.foldr (fun n acc => objectKeyFrames s n ++ acc) []

/-- Modelled from the spec: `mutils.selectedObjectsFrameRange` (outside
this repository's sources) returns the first and last keyframe over the
given objects' animation, each `None` when there is no animation. -/
def selectedObjectsFrameRange (s : Scene) (objs : List String) :
    Option Int × Option Int :=
  ((allKeyFrames s objs).min?, (allKeyFrames s objs).max?)

/-- Modelled from the spec: `mutils.getDurationFromNodes` (outside this
repository's sources) returns the length of the animation found on the
nodes — last keyframe minus first keyframe — and `0` when there is none. -/
def getDurationFromNodes (s : Scene) (objs : List String) : Int :=
  match (allKeyFrames s objs).min?, (allKeyFrames s objs).max? with
  | some a, some b => b - a
  | _, _ => 0

/-- The start/end pair `Blendshape.save` works with: the `time` argument
when given (`if not time:`), otherwise the selected objects' frame range. -/
def resolveTime (s : Scene) (objs : List String)
    (time : Option (Option Int × Option Int)) : Option Int × Option Int :=
  match time with
  | none => selectedObjectsFrameRange s objs
  | some t => t

/-- Size of a blendShape node's `.weight` array, as queried by
`maya.cmds.getAttr(name + ".weight", size=True)`. -/
def weightSize (s : Scene) (n : NodeName) : Nat :=
  ((lookupObject s n).map (fun o => o.blendAliases.length)).getD 0

/-- Alias of weight index `i`, as queried by
`maya.cmds.aliasAttr(name + ".weight[i]", query=True)`. -/
def aliasAttrQuery (s : Scene) (n : NodeName) (i : Nat) : Option String :=
  match lookupObject s n with
  | none => none
  | some o => o.blendAliases.getD i none

/-- Embedding of `Blendshape.getBlendshapeParamList`: one alias attribute
name per weight index `i in range(0, size)`, in index order. -/
def getBlendshapeParamList (s : Scene) (n : NodeName) : List (Option String) :=
  (List.range (weightSize s n)).map (fun i => aliasAttrQuery s n i)

/-- Sampled key times `start, start + sampleBy, ...` up to `end`, used by
the bake model. -/
def rangeKeys (a b step : Int) : List Int :=
  if step ≤ 0 then []
  else (List.range ((b - a).toNat / step.toNat + 1)).map (fun i => a + step * (i : Int))

/-- Modelled from the spec: `mutils.bakeConnected` (outside this
repository's sources) converts driven (connection-based) attribute values
into explicit keyframes over the given time range — it creates a fresh
animation curve for every driven attribute of the listed objects and
removes the baked connections. -/
def bakeAttrStep (n : String) (a b sampleBy : Int) (st : MayaState)
    (attr : String) : MayaState :=
  let fn := freshName st "BAKE"
  setScene fn.2 { fn.2.scene with
    curveNodes := fn.2.scene.curveNodes ++
      [{ name := fn.1, curve := { keys := rangeKeys a b sampleBy } }],
    objects := fn.2.scene.objects.map (fun o2 =>
      if o2.name = NodeName.user n then
        { o2 with attrCurveMap := setAssoc o2.attrCurveMap attr fn.1 }
      else o2),
    connections := fn.2.scene.connections.filter (fun c => c.2 ≠ n ++ "." ++ attr) }

def bakeObjStep (a b sampleBy : Int) (st : MayaState) (n : String) : MayaState :=
  match lookupObject st.scene (.user n) with
  | none => st
  | some o => o.drivenAttrs.foldl (bakeAttrStep n a b sampleBy) st

def bakeConnectedCmd (st : MayaState) (objs : List String) (a b sampleBy : Int) :
    MayaState :=
  objs.foldl (bakeObjStep a b sampleBy) st

/-! ## Blendshape.createObjectData -/

/-- One entry of the `"attrs"` dictionary built by
`Blendshape.createObjectData`: `{"type": ..., "value": ...}`. -/
structure StoredAttr where
  typeName : String
  value : Option Int
deriving Repr, DecidableEq

/-- Body of the storage loop of `Blendshape.createObjectData`: for a valid
attribute whose queried value is not `None`, store its type and value
under the attribute's name; otherwise leave the dictionary unchanged (the
`None` case only logs a warning). -/
def insertAttr (s : Scene) (n : NodeName) (acc : List (String × StoredAttr))
    (a : Option String) : List (String × StoredAttr) :=
  let attrib : Attribute := ⟨n, a⟩
  if attrib.isValid s then
    match attrib.value s with
    | none => acc
    | some _ => setAssoc acc (attrib.attrName) ⟨attrib.typeName s, attrib.value s⟩
  else acc

/-- The attribute name list `Blendshape.createObjectData` iterates: the
blendShape alias list for a blendShape-typed node, otherwise
`list(set(listAttr(name, keyable=True) or []))`. -/
def attrEntryList (s : Scene) (n : NodeName) : List (Option String) :=
  if nodeTypeOf s n = BLEND_SHAPE_TYPE then getBlendshapeParamList s n
  else ((((lookupObject s n).map (fun o => o.keyableAttrs)).getD []).dedup).map some

/-- Embedding of `Blendshape.createObjectData`, returning the `"attrs"`
dictionary of the object data.  `prior` is `self.attrs(name)`, the attrs
already recorded for the object on the transfer object (empty for a
freshly created transfer object). -/
def createObjectData (s : Scene) (prior : List (String × StoredAttr))
    (n : String) : List (String × StoredAttr) :=
  (attrEntryList s (.user n)).foldl (insertAttr s (.user n)) prior

/-! ## Blendshape.save -/

/-- The slice of the transfer object (`mutils.TransferObject` state) that
`Blendshape.save` reads and writes: the keys of `self.objects()`, the
metadata dictionary, the curves recorded through `self.setAnimCurve`, and
the path set by `self.setPath`. -/
structure BlendshapeObj where
  objectsList : List String
  metadata : List (String × Int) := []
  animCurves : List (String × Option String × NodeName) := []
  path : Option String := none
deriving Repr, DecidableEq

/-- Embedding of `self.setMetadata(key, value)`. -/
def setMetadata (b : BlendshapeObj) (k : String) (v : Int) : BlendshapeObj :=
  { b with metadata := setAssoc b.metadata k v }

/-- Accumulator for the save loop: the Maya state, the transfer object,
and the `deleteObjects` / `validCurves` bookkeeping lists. -/
structure SaveAcc where
  st : MayaState
  obj : BlendshapeObj
  deleteObjects : List NodeName
  validCurves : List NodeName
deriving Repr, DecidableEq

/-- Body of the inner `for attr in attrs` loop of `Blendshape.save`:
rename the duplicated attribute's curve, record it for deletion, copy the
display attributes from the source curve, and when the curve holds keys in
the saved range, record it on the transfer object, cut the keys outside
the range and add it to `validCurves`. -/
def processAttr (startF endF : Int) (srcName : String) (dupName : NodeName)
    (acc : SaveAcc) (attr : Option String) : SaveAcc :=
  match Attribute.animCurve acc.st.scene ⟨dupName, attr⟩ with
  | none => acc
  | some dstCurve0 =>
    let rn := renameCurve acc.st dstCurve0
    let dstCurve := rn.1
    let st1 := rn.2
    let deleteObjects := acc.deleteObjects ++ [dstCurve]
    let st2 :=
      match Attribute.animCurve st1.scene ⟨NodeName.user srcName, attr⟩ with
      | none => st1
      | some srcCurve => copyCurveDisplayAttrs st1 srcCurve dstCurve
    if keyframeCount st2.scene dstCurve startF endF ≠ 0 then
      let obj := { acc.obj with
        animCurves := acc.obj.animCurves ++ [(srcName, attr, dstCurve)] }
      let st3 := cutKey st2 dstCurve MIN_TIME_LIMIT (startF - 1)
      let st4 := cutKey st3 dstCurve (endF + 1) MAX_TIME_LIMIT
      { st := st4, obj := obj, deleteObjects := deleteObjects,
        validCurves := acc.validCurves ++ [dstCurve] }
    else
      { st := st2, obj := acc.obj, deleteObjects := deleteObjects,
        validCurves := acc.validCurves }

/-- Body of the outer `for name in objects` loop of `Blendshape.save`:
copy the object's keys in `[start, end)`; when something was copied,
duplicate the node, paste the keys onto the duplicate and process each
exportable attribute of the duplicate. -/
def processObject (startF endF : Int) (acc : SaveAcc) (name : String) : SaveAcc :=
  let clip := copyKey acc.st.scene (.user name) startF endF
  if clip = [] then acc
  else
    let dp := duplicate acc.st (.user name)
    let dupName := dp.1
    let st1 := dp.2
    let deleteObjects := acc.deleteObjects ++ [dupName]
    let st2 := pasteKey st1 dupName clip
    let attrs :=
      if nodeTypeOf st2.scene dupName = BLEND_SHAPE_TYPE then
        getBlendshapeParamList st2.scene dupName
      else
        (((lookupObject st2.scene dupName).map
          (fun o => o.unlockedKeyableAttrs)).getD []).map some
    let attrs := (attrs.dedup).filter
      (fun a => ¬ a ∈ [some "translate", some "rotate", some "scale"])
    attrs.foldl (processAttr startF endF name dupName)
      { st := st2, obj := acc.obj, deleteObjects := deleteObjects,
        validCurves := acc.validCurves }

/-- The `fileType = fileType or DEFAULT_FILE_TYPE` resolution. -/
def effectiveFileType (ft : String) : String :=
  if ft = "" then DEFAULT_FILE_TYPE else ft

/-- The scene-fragment file name chosen by `Blendshape.save`:
`animation.mb` for `mayaBinary`, `animation.ma` otherwise. -/
def animationFileName (ft : String) : String :=
  if ft = "mayaBinary" then "animation.mb" else "animation.ma"

/-- The `try ... finally` part of `Blendshape.save`, entered once every
validation has passed, with the resolved frame range `(startF, endRaw)`
and the effective file type.  Returns the propagated error message (if the
scene-fragment export raised) together with the final state and the
bookkeeping lists; `exportOk = false` makes the `maya.cmds.file` export
raise, exercising the `finally` path. -/
def saveLoopAcc (self1 : BlendshapeObj) (stA : MayaState) (startF endF : Int) :
    SaveAcc :=
  self1.objectsList.foldl (processObject startF endF)
    { st := stA, obj := self1, deleteObjects := [], validCurves := [] }

/-- The post-loop file writes of `Blendshape.save`: `pose.json` is always
written; the Maya scene fragment is exported (selecting `validCurves`)
when at least one valid curve was captured.  `exportOk = false` makes the
`maya.cmds.file` export raise. -/
def saveWrite (path fileType : String) (exportOk : Bool) (acc : SaveAcc) :
    Option String × MayaState :=
  let mayaPath := path ++ "/" ++ animationFileName fileType
  let posePath := path ++ "/pose.json"
  let stB := writeDisk acc.st posePath (DiskFile.poseJson acc.obj.metadata)
  if ¬ acc.validCurves = [] then
    if exportOk then
      (none,
        writeDisk stB mayaPath (DiskFile.mayaExport
          ((stB.scene.curveNodes.filter (fun c => c.name ∈ acc.validCurves)).map
            (fun c => (c.name, c.curve.keys)))))
    else (some "RuntimeError: export failed", stB)
  else (none, stB)

/-- The `finally` block of `Blendshape.save`: close and undo the bake
chunk when `bakeConnected`, otherwise delete the recorded helper nodes. -/
def saveFinally (bakeConnected : Bool) (acc : SaveAcc) (st : MayaState) :
    MayaState :=
  if bakeConnected then undoCmd (undoCloseChunk st)
  else if ¬ acc.deleteObjects = [] then deleteNodes st acc.deleteObjects
  else st

def saveAccOf (self : BlendshapeObj) (st0 : MayaState)
    (startF endRaw sampleBy : Int) (bakeConnected : Bool) : SaveAcc :=
  let self1 := setMetadata (setMetadata self "endFrame" endRaw) "startFrame" startF
  let endF := endRaw + 1
  let stA :=
    if bakeConnected then
      bakeConnectedCmd (undoOpenChunk st0) self1.objectsList startF endF sampleBy
    else st0
  saveLoopAcc self1 stA startF endF

def saveBody (self : BlendshapeObj) (st0 : MayaState) (path : String)
    (startF endRaw sampleBy : Int) (fileType : String)
    (bakeConnected exportOk : Bool) : Option String × SaveAcc :=
  let acc := saveAccOf self st0 startF endRaw sampleBy bakeConnected
  let res := saveWrite path fileType exportOk acc
  let stC := saveFinally bakeConnected acc res.2
  match res.1 with
  | some msg =>
    (some msg, { st := stC, obj := acc.obj, deleteObjects := acc.deleteObjects,
                 validCurves := acc.validCurves })
  | none =>
    (none, { st := stC, obj := { acc.obj with path := some path },
             deleteObjects := acc.deleteObjects, validCurves := acc.validCurves })

/-- Embedding of `Blendshape.save(path, time, sampleBy, fileType,
bakeConnected)`.  The first component is the message of the raised
exception (`AnimationTransferError` from the validations, or the export
error), `none` on success; the second component is the resulting transfer
object, Maya state and bookkeeping.  Validation errors leave the state
untouched, exactly as in the source where they are raised before the
`try` block. -/
def Blendshape.save (self : BlendshapeObj) (st0 : MayaState) (path : String)
    (time : Option (Option Int × Option Int)) (sampleBy : Int)
    (fileType : String) (bakeConnected exportOk : Bool) :
    Option String × SaveAcc :=
  let errAcc : SaveAcc := { st := st0, obj := self, deleteObjects := [], validCurves := [] }
  let ft := effectiveFileType fileType
  let resolved := resolveTime st0.scene self.objectsList time
  match validateAnimLayers st0.scene.selectedAnimLayers with
  | some msg => (some msg, errAcc)
  | none =>
    match resolved with
    | (some startF, some endRaw) =>
      if startF ≥ endRaw then
        (some "The start frame cannot be greater than or equal to the end frame!", errAcc)
      else if getDurationFromNodes st0.scene self.objectsList ≤ 0 then
        (some "No animation was found on the specified object/s! Please create a pose instead!", errAcc)
      else
        saveBody self st0 path startF endRaw sampleBy ft bakeConnected exportOk
    | _ =>
      (some "Please specify a start and end frame!", errAcc)

/-! ## loadBlendshape -/

/-- The part of a saved item that `loadBlendshape` reads back:
`anim.startFrame()` and `anim.endFrame()` of the transfer object built by
`mutils.Blendshape.fromPath(path)`. -/
structure AnimFile where
  startFrame : Int
  endFrame : Int
deriving Repr, DecidableEq

/-- One `anim.load(...)` call issued by the loop of `loadBlendshape`,
with the animation's own frame range attached. -/
structure LoadCall where
  path : String
  option : String
  startFrame : Option Int
  animStart : Int
  animEnd : Int
deriving Repr, DecidableEq

/-- Fallback element for indexing into a list of load calls. -/
def dummyLoadCall : LoadCall :=
  { path := "", option := "", startFrame := none, animStart := 0, animEnd := 0 }

/-- Loop state of `loadBlendshape`: `isFirstAnim`, the current `option`
and `startFrame`, and the `anim.load` calls issued so far. -/
structure LoadAcc where
  isFirstAnim : Bool
  option : String
  startFrame : Option Int
  calls : List LoadCall
deriving Repr, DecidableEq

/-- Body of the `for path in paths` loop of `loadBlendshape`. -/
def loadStep (fetch : String → AnimFile) (spacing : Int) (acc : LoadAcc)
    (path : String) : LoadAcc :=
  let anim := fetch path
  let startFrame :=
    if acc.startFrame = none ∧ acc.isFirstAnim then some anim.startFrame
    else acc.startFrame
  let option :=
    if acc.option = "replaceCompletely" ∧ ¬ acc.isFirstAnim then "insert"
    else acc.option
  let call : LoadCall :=
    { path := path, option := option, startFrame := startFrame,
      animStart := anim.startFrame, animEnd := anim.endFrame }
  let duration := anim.endFrame - anim.startFrame
  { isFirstAnim := false, option := option,
    startFrame := startFrame.map (fun s => s + duration + spacing),
    calls := acc.calls ++ [call] }

/-- Embedding of `loadBlendshape(path, spacing, ..., showDialog=False)`,
returning the sequence of `anim.load` calls the function issues.

The source's loop reads the name `paths`, which is nowhere defined in the
function (its parameter is `path`): in Python this raises `NameError` as
soon as the loop starts.  The free global is modelled as the explicit
parameter `paths`; the `path` parameter is carried to show that the loop
never consults it.  `fetch` models `mutils.Blendshape.fromPath`, and
`currentTimeVal` models `int(maya.cmds.currentTime(query=True))`. -/
def loadBlendshape (path : String) (paths : List String)
    (fetch : String → AnimFile) (spacing : Int) (option : Option String)
    (startFrame : Option Int) (currentTime : Bool) (currentTimeVal : Int) :
    List LoadCall :=
  let _ := path
  let spacing := if spacing < 1 then 1 else spacing
  let option :=
    match option with
    | none => "replaceCompletely"
    | some o => if o = "replace all" then "replaceCompletely" else o
  let startFrame :=
    if currentTime ∧ startFrame = none then some currentTimeVal else startFrame
  (paths.foldl (loadStep fetch spacing)
    { isFirstAnim := true, option := option, startFrame := startFrame,
      calls := [] }).calls

/-! ## BlendshapeItem.write and the saveBlendshape call convention -/

/-- A Python value passed at a call site (only the shapes that appear in
the calls under scrutiny). -/
inductive PyValue
  | str (s : String)
  | strList (l : List String)
  | dict (entries : List (String × String))
  | noneV
deriving Repr, DecidableEq

/-- The formal parameters of
`mutils.saveBlendshape(objects, path, time=None, ..., metadata=None, ...)`
after binding a call's arguments: the first positional argument lands in
`objects`, the second in `path`. -/
structure SaveBlendshapeArgs where
  objects : PyValue
  path : PyValue
  metadata : PyValue
deriving Repr, DecidableEq

/-- Positional binding of a `saveBlendshape(arg1, arg2, metadata=m)` call
against the signature `saveBlendshape(objects, path, ..., metadata=None, ...)`
from blendshape.py. -/
def saveBlendshapeBind (arg1 arg2 m : PyValue) : SaveBlendshapeArgs :=
  { objects := arg1, path := arg2, metadata := m }

/-- The call `BlendshapeItem.write(path, objects, iconPath, **options)`
makes into the transfer layer:
`mutils.saveBlendshape(path + "/blendshape.json", objects,
metadata={"description": options.get("comment", "")})`, bound against
`saveBlendshape`'s positional parameters. -/
def blendshapeItemWriteCall (path : String) (objects : List String)
    (comment : String) : SaveBlendshapeArgs :=
  saveBlendshapeBind
    (.str (path ++ "/blendshape.json"))
    (.strList objects)
    (.dict [("description", comment)])

/-! ## Claim C1 -/

/-- C1: refuted on the code (code bug).  `BlendshapeItem.write` passes the
destination string `path + "/blendshape.json"` as the FIRST positional
argument of `mutils.saveBlendshape`, whose signature is
`saveBlendshape(objects, path, ...)`: the destination therefore binds to
the `objects` parameter and the object list to the `path` parameter — the
opposite of what the claim states (and of what `saveBlendshape`'s own
docstring example `saveBlendshape(path, metadata=...)` expects). -/
theorem C1_write_binds_swapped_arguments (path : String) (objects : List String)
    (comment : String) :
    (blendshapeItemWriteCall path objects comment).objects
        = PyValue.str (path ++ "/blendshape.json")
      ∧ (blendshapeItemWriteCall path objects comment).path
        = PyValue.strList objects :=
  ⟨rfl, rfl⟩

/-! ## Claim C2 -/

theorem foldl_loadStep_calls_paths (fetch : String → AnimFile) (spacing : Int) :
    ∀ (ps : List String) (acc : LoadAcc),
      ((ps.foldl (loadStep fetch spacing) acc).calls).map (fun c => c.path)
        = acc.calls.map (fun c => c.path) ++ ps := by
  intro ps
  induction ps with
  | nil => intro acc; simp
  | cons p t ih =>
    intro acc
    rw [List.foldl_cons, ih]
    simp [loadStep]

/-- C2: refuted on the code (code bug).  With `showDialog=False`,
`loadBlendshape(path, ...)` never reads its `path` argument: the loop
`for path in paths:` iterates the undefined global name `paths` (in
Python this raises `NameError` on the first call).  Modelling the free
name as an explicit parameter, the sequence of `anim.load` calls is
independent of the `path` argument and visits exactly the elements of
`paths` — the given path itself is never constructed into a Blendshape. -/
theorem C2_load_ignores_path_argument (p1 p2 : String) (paths : List String)
    (fetch : String → AnimFile) (spacing : Int) (option : Option String)
    (startFrame : Option Int) (currentTime : Bool) (currentTimeVal : Int) :
    loadBlendshape p1 paths fetch spacing option startFrame currentTime currentTimeVal
        = loadBlendshape p2 paths fetch spacing option startFrame currentTime currentTimeVal
      ∧ (loadBlendshape p1 paths fetch spacing option startFrame currentTime
          currentTimeVal).map (fun c => c.path) = paths := by
  refine ⟨rfl, ?_⟩
  unfold loadBlendshape
  rw [foldl_loadStep_calls_paths]
  simp

/-! ## Claim C6 -/

theorem insertAttr_lookup_preserved (s : Scene) (n : NodeName) (a : String)
    (acc : List (String × StoredAttr)) (b : Option String)
    (h : lookupAssoc acc a
      = some ⟨Attribute.typeName s ⟨n, some a⟩, Attribute.value s ⟨n, some a⟩⟩) :
    lookupAssoc (insertAttr s n acc b) a
      = some ⟨Attribute.typeName s ⟨n, some a⟩, Attribute.value s ⟨n, some a⟩⟩ := by
  unfold insertAttr
  by_cases hvld : Attribute.isValid s ⟨n, b⟩
  · simp only [hvld, if_true]
    cases hval : Attribute.value s ⟨n, b⟩ with
    | none => exact h
    | some w =>
      cases b with
      | none =>
        exact absurd hvld (by simp [Attribute.isValid, Attribute.infoOf])
      | some x =>
        have hx : Attribute.attrName ⟨n, some x⟩ = x := rfl
        rw [hx]
        by_cases hxa : x = a
        · subst hxa
          rw [lookupAssoc_setAssoc_self, hval]
        · rw [lookupAssoc_setAssoc_other _ _ _ _ (fun hc => hxa hc.symm), h]
  · simp only [hvld, if_false]
    exact h

theorem foldl_insertAttr_lookup_preserved (s : Scene) (n : NodeName) (a : String) :
    ∀ (as : List (Option String)) (acc : List (String × StoredAttr)),
      lookupAssoc acc a
        = some ⟨Attribute.typeName s ⟨n, some a⟩, Attribute.value s ⟨n, some a⟩⟩ →
      lookupAssoc (as.foldl (insertAttr s n) acc) a
        = some ⟨Attribute.typeName s ⟨n, some a⟩, Attribute.value s ⟨n, some a⟩⟩ := by
  intro as
  induction as with
  | nil => intro acc h; exact h
  | cons b t ih =>
    intro acc h
    rw [List.foldl_cons]
    exact ih _ (insertAttr_lookup_preserved s n a acc b h)

theorem foldl_insertAttr_lookup_of_mem (s : Scene) (n : NodeName) (a : String)
    (v : Int) (hval : Attribute.isValid s ⟨n, some a⟩ = true)
    (hv : Attribute.value s ⟨n, some a⟩ = some v) :
    ∀ (as : List (Option String)) (acc : List (String × StoredAttr)),
      some a ∈ as →
      lookupAssoc (as.foldl (insertAttr s n) acc) a
        = some ⟨Attribute.typeName s ⟨n, some a⟩, some v⟩ := by
  intro as
  induction as with
  | nil => intro acc hmem; simp at hmem
  | cons b t ih =>
    intro acc hmem
    rw [List.foldl_cons]
    rcases List.mem_cons.mp hmem with hb | ht
    · have hb' : b = some a := hb.symm
      subst hb'
      have hstep : lookupAssoc (insertAttr s n acc (some a)) a
          = some ⟨Attribute.typeName s ⟨n, some a⟩, Attribute.value s ⟨n, some a⟩⟩ := by
        unfold insertAttr
        simp only [hval, if_true, hv]
        have hattr : Attribute.attrName ⟨n, some a⟩ = a := rfl
        rw [hattr, lookupAssoc_setAssoc_self]
      rw [foldl_insertAttr_lookup_preserved s n a t _ hstep, hv]
    · exact ih _ ht

/-- C6: confirmed.  For a node of type `blendShape`,
`Blendshape.getBlendshapeParamList` enumerates exactly one alias
attribute name per weight index `i in 0..size-1` (size queried from the
node's `.weight` array), in increasing index order;
`Blendshape.createObjectData` then feeds that list through the same
per-attribute storage loop (`insertAttr`) used for the keyable attributes
of a non-blendShape node, so each valid alias with a non-`None` value is
stored with its type and value. -/
theorem C6_blendshape_weights_stored_as_attributes (s : Scene)
    (prior : List (String × StoredAttr)) (n : String) (o : MayaObject)
    (hob : lookupObject s (.user n) = some o)
    (hbs : o.nodeType = BLEND_SHAPE_TYPE) :
    (getBlendshapeParamList s (.user n)).length = weightSize s (.user n)
    ∧ (∀ i, i < weightSize s (.user n) →
        (getBlendshapeParamList s (.user n)).get? i
          = some (aliasAttrQuery s (.user n) i))
    ∧ createObjectData s prior n
        = (getBlendshapeParamList s (.user n)).foldl (insertAttr s (.user n)) prior
    ∧ (∀ (m : String) (o2 : MayaObject), lookupObject s (.user m) = some o2 →
        o2.nodeType ≠ BLEND_SHAPE_TYPE →
        createObjectData s prior m
          = ((o2.keyableAttrs.dedup).map some).foldl (insertAttr s (.user m)) prior)
    ∧ (∀ (a : String) (v : Int),
        some a ∈ getBlendshapeParamList s (.user n) →
        Attribute.isValid s ⟨.user n, some a⟩ = true →
        Attribute.value s ⟨.user n, some a⟩ = some v →
        lookupAssoc (createObjectData s prior n) a
          = some ⟨Attribute.typeName s ⟨.user n, some a⟩, some v⟩) := by
  have htype : nodeTypeOf s (.user n) = BLEND_SHAPE_TYPE := by
    rw [nodeTypeOf, hob]
    simpa using hbs
  have hentry : attrEntryList s (.user n) = getBlendshapeParamList s (.user n) := by
    rw [attrEntryList, htype]
    simp
  refine ⟨?_, ?_, ?_, ?_, ?_⟩
  · simp [getBlendshapeParamList]
  · intro i hi
    rw [getBlendshapeParamList, List.get?_map, List.get?_range hi]
    rfl
  · rw [createObjectData, hentry]
  · intro m o2 hm hnb
    have htype2 : nodeTypeOf s (.user m) = o2.nodeType := by
      rw [nodeTypeOf, hm]; rfl
    rw [createObjectData, attrEntryList, htype2]
    simp only [hnb, if_false]
    rw [hm]
    rfl
  · intro a v hmem hvalid hv
    rw [createObjectData, hentry]
    exact foldl_insertAttr_lookup_of_mem s (.user n) a v hvalid hv _ prior hmem

/-! ## Claim C9 -/

theorem insertAttr_no_none_value (s : Scene) (n : NodeName)
    (acc : List (String × StoredAttr)) (b : Option String)
    (h : ∀ k e, lookupAssoc acc k = some e → e.value ≠ none) :
    ∀ k e, lookupAssoc (insertAttr s n acc b) k = some e → e.value ≠ none := by
  intro k e
  unfold insertAttr
  by_cases hvalid : Attribute.isValid s ⟨n, b⟩
  · simp only [hvalid, if_true]
    cases hval : Attribute.value s ⟨n, b⟩ with
    | none => exact h k e
    | some w =>
      by_cases hk : Attribute.attrName ⟨n, b⟩ = k
      · rw [hk, lookupAssoc_setAssoc_self]
        intro he
        have he' := (Option.some.inj he).symm
        rw [he']
        simp
      · rw [lookupAssoc_setAssoc_other _ _ _ _ (fun hc => hk hc.symm)]
        exact h k e
  · simp only [hvalid, if_false]
    exact h k e

theorem foldl_insertAttr_no_none_value (s : Scene) (n : NodeName) :
    ∀ (as : List (Option String)) (acc : List (String × StoredAttr)),
      (∀ k e, lookupAssoc acc k = some e → e.value ≠ none) →
      ∀ k e, lookupAssoc (as.foldl (insertAttr s n) acc) k = some e →
        e.value ≠ none := by
  intro as
  induction as with
  | nil => intro acc h; exact h
  | cons b t ih =>
    intro acc h
    rw [List.foldl_cons]
    exact ih _ (insertAttr_no_none_value s n acc b h)

/-- C9: confirmed.  Provided the attrs already recorded on the transfer
object for the name hold no `None` value (in particular when they are
empty, as for a freshly created transfer object), the `"attrs"` dictionary
returned by `Blendshape.createObjectData` never stores a `None` value: an
attribute whose queried value is `None` is skipped, and every stored entry
carries a type together with a non-`None` value. -/
theorem C9_createObjectData_never_stores_none (s : Scene) (n : String)
    (prior : List (String × StoredAttr))
    (hprior : ∀ k e, lookupAssoc prior k = some e → e.value ≠ none) :
    ∀ k e, lookupAssoc (createObjectData s prior n) k = some e →
      e.value ≠ none := by
  rw [createObjectData]
  exact foldl_insertAttr_no_none_value s (.user n) _ prior hprior

/-! ## Projection lemmas for the save pipeline -/

theorem renameCurve_disk (st : MayaState) (old : NodeName) :
    (renameCurve st old).2.disk = st.disk := rfl

theorem renameCurve_undo (st : MayaState) (old : NodeName) :
    (renameCurve st old).2.undoSnapshot = st.undoSnapshot := rfl

theorem copyCurveDisplayAttrs_disk (st : MayaState) (src dst : NodeName) :
    (copyCurveDisplayAttrs st src dst).disk = st.disk := by
  unfold copyCurveDisplayAttrs
  split <;> rfl

theorem copyCurveDisplayAttrs_undo (st : MayaState) (src dst : NodeName) :
    (copyCurveDisplayAttrs st src dst).undoSnapshot = st.undoSnapshot := by
  unfold copyCurveDisplayAttrs
  split <;> rfl

theorem cutKey_disk (st : MayaState) (n : NodeName) (a b : Int) :
    (cutKey st n a b).disk = st.disk := rfl

theorem cutKey_undo (st : MayaState) (n : NodeName) (a b : Int) :
    (cutKey st n a b).undoSnapshot = st.undoSnapshot := rfl

theorem processAttr_st_disk (sF eF : Int) (sn : String) (dn : NodeName)
    (acc : SaveAcc) (a : Option String) :
    (processAttr sF eF sn dn acc a).st.disk = acc.st.disk := by
  unfold processAttr
  split
  · rfl
  · dsimp only
    split <;> split <;>
      simp [cutKey_disk, copyCurveDisplayAttrs_disk, renameCurve_disk]

theorem processAttr_st_undo (sF eF : Int) (sn : String) (dn : NodeName)
    (acc : SaveAcc) (a : Option String) :
    (processAttr sF eF sn dn acc a).st.undoSnapshot = acc.st.undoSnapshot := by
  unfold processAttr
  split
  · rfl
  · dsimp only
    split <;> split <;>
      simp [cutKey_undo, copyCurveDisplayAttrs_undo, renameCurve_undo]

theorem processAttr_obj_metadata (sF eF : Int) (sn : String) (dn : NodeName)
    (acc : SaveAcc) (a : Option String) :
    (processAttr sF eF sn dn acc a).obj.metadata = acc.obj.metadata := by
  unfold processAttr
  split
  · rfl
  · dsimp only
    split <;> split <;> rfl

theorem foldl_processAttr_st_disk (sF eF : Int) (sn : String) (dn : NodeName) :
    ∀ (as : List (Option String)) (acc : SaveAcc),
      ((as.foldl (processAttr sF eF sn dn) acc).st.disk) = acc.st.disk := by
  intro as
  induction as with
  | nil => intro acc; rfl
  | cons a t ih =>
    intro acc
    rw [List.foldl_cons, ih, processAttr_st_disk]

theorem foldl_processAttr_st_undo (sF eF : Int) (sn : String) (dn : NodeName) :
    ∀ (as : List (Option String)) (acc : SaveAcc),
      ((as.foldl (processAttr sF eF sn dn) acc).st.undoSnapshot)
        = acc.st.undoSnapshot := by
  intro as
  induction as with
  | nil => intro acc; rfl
  | cons a t ih =>
    intro acc
    rw [List.foldl_cons, ih, processAttr_st_undo]

theorem foldl_processAttr_obj_metadata (sF eF : Int) (sn : String) (dn : NodeName) :
    ∀ (as : List (Option String)) (acc : SaveAcc),
      ((as.foldl (processAttr sF eF sn dn) acc).obj.metadata)
        = acc.obj.metadata := by
  intro as
  induction as with
  | nil => intro acc; rfl
  | cons a t ih =>
    intro acc
    rw [List.foldl_cons, ih, processAttr_obj_metadata]

theorem duplicate_disk (st : MayaState) (n : NodeName) :
    (duplicate st n).2.disk = st.disk := by
  unfold duplicate
  dsimp only
  split <;> rfl

theorem duplicate_undo (st : MayaState) (n : NodeName) :
    (duplicate st n).2.undoSnapshot = st.undoSnapshot := by
  unfold duplicate
  dsimp only
  split <;> rfl

theorem pasteKeyStep_disk (dup : NodeName) (st : MayaState) (p : String × List Int) :
    (pasteKeyStep dup st p).disk = st.disk := rfl

theorem pasteKeyStep_undo (dup : NodeName) (st : MayaState) (p : String × List Int) :
    (pasteKeyStep dup st p).undoSnapshot = st.undoSnapshot := rfl

theorem pasteKey_disk (dup : NodeName) :
    ∀ (clip : List (String × List Int)) (st : MayaState),
      (pasteKey st dup clip).disk = st.disk := by
  intro clip
  induction clip with
  | nil => intro st; rfl
  | cons p t ih =>
    intro st
    unfold pasteKey at ih ⊢
    rw [List.foldl_cons, ih, pasteKeyStep_disk]

theorem pasteKey_undo (dup : NodeName) :
    ∀ (clip : List (String × List Int)) (st : MayaState),
      (pasteKey st dup clip).undoSnapshot = st.undoSnapshot := by
  intro clip
  induction clip with
  | nil => intro st; rfl
  | cons p t ih =>
    intro st
    unfold pasteKey at ih ⊢
    rw [List.foldl_cons, ih, pasteKeyStep_undo]

theorem processObject_st_disk (sF eF : Int) (acc : SaveAcc) (name : String) :
    (processObject sF eF acc name).st.disk = acc.st.disk := by
  unfold processObject
  dsimp only
  split
  · rfl
  · rw [foldl_processAttr_st_disk]
    show (pasteKey (duplicate acc.st (.user name)).2 _ _).disk = acc.st.disk
    rw [pasteKey_disk, duplicate_disk]

theorem processObject_st_undo (sF eF : Int) (acc : SaveAcc) (name : String) :
    (processObject sF eF acc name).st.undoSnapshot = acc.st.undoSnapshot := by
  unfold processObject
  dsimp only
  split
  · rfl
  · rw [foldl_processAttr_st_undo]
    show (pasteKey (duplicate acc.st (.user name)).2 _ _).undoSnapshot
      = acc.st.undoSnapshot
    rw [pasteKey_undo, duplicate_undo]

theorem processObject_obj_metadata (sF eF : Int) (acc : SaveAcc) (name : String) :
    (processObject sF eF acc name).obj.metadata = acc.obj.metadata := by
  unfold processObject
  dsimp only
  split
  · rfl
  · rw [foldl_processAttr_obj_metadata]

theorem foldl_processObject_st_disk (sF eF : Int) :
    ∀ (names : List String) (acc : SaveAcc),
      ((names.foldl (processObject sF eF) acc).st.disk) = acc.st.disk := by
  intro names
  induction names with
  | nil => intro acc; rfl
  | cons n t ih =>
    intro acc
    rw [List.foldl_cons, ih, processObject_st_disk]

theorem foldl_processObject_st_undo (sF eF : Int) :
    ∀ (names : List String) (acc : SaveAcc),
      ((names.foldl (processObject sF eF) acc).st.undoSnapshot)
        = acc.st.undoSnapshot := by
  intro names
  induction names with
  | nil => intro acc; rfl
  | cons n t ih =>
    intro acc
    rw [List.foldl_cons, ih, processObject_st_undo]

theorem foldl_processObject_obj_metadata (sF eF : Int) :
    ∀ (names : List String) (acc : SaveAcc),
      ((names.foldl (processObject sF eF) acc).obj.metadata)
        = acc.obj.metadata := by
  intro names
  induction names with
  | nil => intro acc; rfl
  | cons n t ih =>
    intro acc
    rw [List.foldl_cons, ih, processObject_obj_metadata]

theorem bakeAttrStep_disk (n : String) (a b sampleBy : Int) (st : MayaState)
    (attr : String) : (bakeAttrStep n a b sampleBy st attr).disk = st.disk := rfl

theorem bakeAttrStep_undo (n : String) (a b sampleBy : Int) (st : MayaState)
    (attr : String) :
    (bakeAttrStep n a b sampleBy st attr).undoSnapshot = st.undoSnapshot := rfl

theorem bakeObjStep_disk (a b sampleBy : Int) (st : MayaState) (n : String) :
    (bakeObjStep a b sampleBy st n).disk = st.disk := by
  unfold bakeObjStep
  split
  · rfl
  · rename_i o _
    have : ∀ (attrs : List String) (st : MayaState),
        (attrs.foldl (bakeAttrStep n a b sampleBy) st).disk = st.disk := by
      intro attrs
      induction attrs with
      | nil => intro st; rfl
      | cons x t ih =>
        intro st
        rw [List.foldl_cons, ih, bakeAttrStep_disk]
    exact this o.drivenAttrs st

theorem bakeObjStep_undo (a b sampleBy : Int) (st : MayaState) (n : String) :
    (bakeObjStep a b sampleBy st n).undoSnapshot = st.undoSnapshot := by
  unfold bakeObjStep
  split
  · rfl
  · rename_i o _
    have : ∀ (attrs : List String) (st : MayaState),
        (attrs.foldl (bakeAttrStep n a b sampleBy) st).undoSnapshot
          = st.undoSnapshot := by
      intro attrs
      induction attrs with
      | nil => intro st; rfl
      | cons x t ih =>
        intro st
        rw [List.foldl_cons, ih, bakeAttrStep_undo]
    exact this o.drivenAttrs st

theorem bakeConnectedCmd_disk (a b sampleBy : Int) :
    ∀ (objs : List String) (st : MayaState),
      (bakeConnectedCmd st objs a b sampleBy).disk = st.disk := by
  intro objs
  induction objs with
  | nil => intro st; rfl
  | cons n t ih =>
    intro st
    unfold bakeConnectedCmd at ih ⊢
    rw [List.foldl_cons, ih, bakeObjStep_disk]

theorem bakeConnectedCmd_undo (a b sampleBy : Int) :
    ∀ (objs : List String) (st : MayaState),
      (bakeConnectedCmd st objs a b sampleBy).undoSnapshot = st.undoSnapshot := by
  intro objs
  induction objs with
  | nil => intro st; rfl
  | cons n t ih =>
    intro st
    unfold bakeConnectedCmd at ih ⊢
    rw [List.foldl_cons, ih, bakeObjStep_undo]

/-! ## Stage lemmas for saveBody -/

theorem saveLoopAcc_obj_metadata (self1 : BlendshapeObj) (stA : MayaState)
    (sF eF : Int) :
    (saveLoopAcc self1 stA sF eF).obj.metadata = self1.metadata := by
  unfold saveLoopAcc
  rw [foldl_processObject_obj_metadata]

theorem saveLoopAcc_st_disk (self1 : BlendshapeObj) (stA : MayaState)
    (sF eF : Int) :
    (saveLoopAcc self1 stA sF eF).st.disk = stA.disk := by
  unfold saveLoopAcc
  rw [foldl_processObject_st_disk]

theorem saveLoopAcc_st_undo (self1 : BlendshapeObj) (stA : MayaState)
    (sF eF : Int) :
    (saveLoopAcc self1 stA sF eF).st.undoSnapshot = stA.undoSnapshot := by
  unfold saveLoopAcc
  rw [foldl_processObject_st_undo]

theorem saveFinally_disk (bake : Bool) (acc : SaveAcc) (st : MayaState) :
    (saveFinally bake acc st).disk = st.disk := by
  unfold saveFinally
  split
  · rfl
  · split <;> rfl

theorem saveWrite_snd_disk (path ft : String) (exportOk : Bool) (acc : SaveAcc) :
    (saveWrite path ft exportOk acc).2.disk
      = acc.st.disk ++ [(path ++ "/pose.json", DiskFile.poseJson acc.obj.metadata)]
        ++ (if (saveWrite path ft exportOk acc).1 = none ∧ ¬ acc.validCurves = []
            then [(path ++ "/" ++ animationFileName ft,
              DiskFile.mayaExport
                (((writeDisk acc.st (path ++ "/pose.json")
                    (DiskFile.poseJson acc.obj.metadata)).scene.curveNodes.filter
                      (fun c => c.name ∈ acc.validCurves)).map
                  (fun c => (c.name, c.curve.keys))))]
            else []) := by
  unfold saveWrite
  dsimp only
  by_cases hvc : acc.validCurves = []
  · simp [hvc, writeDisk]
  · by_cases hok : exportOk
    · simp [hvc, hok, writeDisk]
    · simp [hvc, hok, writeDisk]

theorem saveBody_obj_metadata (self : BlendshapeObj) (st0 : MayaState)
    (path : String) (sF eR sb : Int) (ft : String) (bake exportOk : Bool) :
    (saveBody self st0 path sF eR sb ft bake exportOk).2.obj.metadata
      = setAssoc (setAssoc self.metadata "endFrame" eR) "startFrame" sF := by
  unfold saveBody
  dsimp only
  split <;>
    simp [saveAccOf, saveLoopAcc_obj_metadata, setMetadata]

/-- Success of `Blendshape.save` means every validation passed and the
result is the one produced by the try/finally body. -/
theorem save_ok_cases (self : BlendshapeObj) (st0 : MayaState) (path : String)
    (time : Option (Option Int × Option Int)) (sampleBy : Int)
    (fileType : String) (bake exportOk : Bool) (out : SaveAcc)
    (hok : Blendshape.save self st0 path time sampleBy fileType bake exportOk
      = (none, out)) :
    ∃ sF eR, resolveTime st0.scene self.objectsList time = (some sF, some eR)
      ∧ validateAnimLayers st0.scene.selectedAnimLayers = none
      ∧ ¬ sF ≥ eR
      ∧ ¬ getDurationFromNodes st0.scene self.objectsList ≤ 0
      ∧ saveBody self st0 path sF eR sampleBy (effectiveFileType fileType)
          bake exportOk = (none, out) := by
  unfold Blendshape.save at hok
  dsimp only at hok
  cases hv : validateAnimLayers st0.scene.selectedAnimLayers with
  | some msg => rw [hv] at hok; simp at hok
  | none =>
    rw [hv] at hok
    rcases hr : resolveTime st0.scene self.objectsList time with ⟨so, eo⟩
    rw [hr] at hok
    cases so with
    | none => simp at hok
    | some sF =>
      cases eo with
      | none => simp at hok
      | some eR =>
        dsimp only at hok
        by_cases hse : sF ≥ eR
        · rw [if_pos hse] at hok; simp at hok
        · rw [if_neg hse] at hok
          by_cases hdur : getDurationFromNodes st0.scene self.objectsList ≤ 0
          · rw [if_pos hdur] at hok; simp at hok
          · rw [if_neg hdur] at hok
            exact ⟨sF, eR, rfl, rfl, hse, hdur, hok⟩

/-! ## Claim C7 -/

/-- C7: confirmed.  On a successful `Blendshape.save` with resolved frame
range `(s, e)`, the metadata carried into the written `pose.json` records
exactly the caller's range: `startFrame = s` and `endFrame = e` — the
metadata is written before the internal `end += 1` extension used for
copying keys, and nothing later modifies it. -/
theorem C7_save_metadata_records_caller_range (self : BlendshapeObj)
    (st0 : MayaState) (path : String) (s e : Int) (sampleBy : Int)
    (fileType : String) (bake exportOk : Bool) (out : SaveAcc)
    (hok : Blendshape.save self st0 path (some (some s, some e)) sampleBy
      fileType bake exportOk = (none, out)) :
    lookupAssoc out.obj.metadata "startFrame" = some s
    ∧ lookupAssoc out.obj.metadata "endFrame" = some e := by
  obtain ⟨sF, eR, hr, _, _, _, hbody⟩ :=
    save_ok_cases self st0 path _ sampleBy fileType bake exportOk out hok
  have hse : sF = s ∧ eR = e := by
    have : resolveTime st0.scene self.objectsList (some (some s, some e))
        = (some s, some e) := rfl
    rw [this] at hr
    exact ⟨by injection (Prod.mk.injEq _ _ _ _ ▸ hr).1 with h; exact h.symm,
           by injection (Prod.mk.injEq _ _ _ _ ▸ hr).2 with h; exact h.symm⟩
  obtain ⟨h1, h2⟩ := hse
  subst h1; subst h2
  have hm := saveBody_obj_metadata self st0 path sF eR sampleBy
    (effectiveFileType fileType) bake exportOk
  rw [hbody] at hm
  constructor
  · rw [hm, lookupAssoc_setAssoc_self]
  · rw [hm, lookupAssoc_setAssoc_other _ _ _ _ (by decide),
      lookupAssoc_setAssoc_self]

/-! ## Claim C8 -/

/-- C8: confirmed.  `Blendshape.save` raises an `AnimationTransferError`
before touching the scene or the disk whenever: more than one animation
layer is selected or the selected layer is locked
(`validateAnimLayers`), the resolved start or end frame is `None`,
`start >= end`, or the objects carry no animation (duration `<= 0`).  In
every such case the returned state is exactly the input state — no bake,
duplicate or file write has happened. -/
theorem C8_save_validation_errors_leave_state_unchanged
    (self : BlendshapeObj) (st0 : MayaState) (path : String)
    (time : Option (Option Int × Option Int)) (sampleBy : Int)
    (fileType : String) (bake exportOk : Bool)
    (hcond : validateAnimLayers st0.scene.selectedAnimLayers ≠ none
      ∨ (resolveTime st0.scene self.objectsList time).1 = none
      ∨ (resolveTime st0.scene self.objectsList time).2 = none
      ∨ (∃ s e, resolveTime st0.scene self.objectsList time = (some s, some e)
          ∧ s ≥ e)
      ∨ getDurationFromNodes st0.scene self.objectsList ≤ 0) :
    ∃ msg, Blendshape.save self st0 path time sampleBy fileType bake exportOk
      = (some msg,
         { st := st0, obj := self, deleteObjects := [], validCurves := [] }) := by
  unfold Blendshape.save
  dsimp only
  cases hv : validateAnimLayers st0.scene.selectedAnimLayers with
  | some msg => exact ⟨msg, rfl⟩
  | none =>
    rcases hr : resolveTime st0.scene self.objectsList time with ⟨so, eo⟩
    cases so with
    | none => exact ⟨_, rfl⟩
    | some s =>
      cases eo with
      | none => exact ⟨_, rfl⟩
      | some e =>
        dsimp only
        rcases hcond with h | h | h | ⟨s', e', hre, hge⟩ | h
        · exact absurd hv h
        · rw [hr] at h; simp at h
        · rw [hr] at h; simp at h
        · rw [hr] at hre
          injection hre with h1 h2
          injection h1 with h1
          injection h2 with h2
          subst h1; subst h2
          rw [if_pos hge]
          exact ⟨_, rfl⟩
        · by_cases hse : s ≥ e
          · rw [if_pos hse]
            exact ⟨_, rfl⟩
          · rw [if_neg hse, if_pos h]
            exact ⟨_, rfl⟩

theorem saveAccOf_st_disk (self : BlendshapeObj) (st0 : MayaState)
    (sF eR sb : Int) (bake : Bool) :
    (saveAccOf self st0 sF eR sb bake).st.disk = st0.disk := by
  unfold saveAccOf
  dsimp only
  rw [saveLoopAcc_st_disk]
  cases bake with
  | false => rfl
  | true =>
    simp only [if_true]
    rw [bakeConnectedCmd_disk]
    rfl

theorem saveAccOf_st_undo_of_bake (self : BlendshapeObj) (st0 : MayaState)
    (sF eR sb : Int) :
    (saveAccOf self st0 sF eR sb true).st.undoSnapshot = some st0.scene := by
  unfold saveAccOf
  dsimp only
  rw [saveLoopAcc_st_undo]
  simp only [if_true]
  rw [bakeConnectedCmd_undo]
  rfl

theorem saveBody_ok_spec (self : BlendshapeObj) (st0 : MayaState)
    (path : String) (sF eR sb : Int) (ft : String) (bake exportOk : Bool)
    (out : SaveAcc)
    (hok : saveBody self st0 path sF eR sb ft bake exportOk = (none, out)) :
    (saveWrite path ft exportOk (saveAccOf self st0 sF eR sb bake)).1 = none
    ∧ out = { st := saveFinally bake (saveAccOf self st0 sF eR sb bake)
                      (saveWrite path ft exportOk
                        (saveAccOf self st0 sF eR sb bake)).2,
              obj := { (saveAccOf self st0 sF eR sb bake).obj with
                        path := some path },
              deleteObjects := (saveAccOf self st0 sF eR sb bake).deleteObjects,
              validCurves := (saveAccOf self st0 sF eR sb bake).validCurves } := by
  unfold saveBody at hok
  dsimp only at hok
  cases hres : (saveWrite path ft exportOk (saveAccOf self st0 sF eR sb bake)).1 with
  | some msg => rw [hres] at hok; simp at hok
  | none =>
    rw [hres] at hok
    refine ⟨rfl, ?_⟩
    injection hok with h1 h2
    exact h2.symm

theorem saveWrite_ok_disk_cases (path ft : String) (exportOk : Bool)
    (acc : SaveAcc) (st' : MayaState)
    (hw : saveWrite path ft exportOk acc = (none, st')) :
    (acc.validCurves = []
      ∧ st'.disk = acc.st.disk
          ++ [(path ++ "/pose.json", DiskFile.poseJson acc.obj.metadata)])
    ∨ (¬ acc.validCurves = []
      ∧ ∃ cs, st'.disk = acc.st.disk
          ++ [(path ++ "/pose.json", DiskFile.poseJson acc.obj.metadata),
              (path ++ "/" ++ animationFileName ft, DiskFile.mayaExport cs)]) := by
  unfold saveWrite at hw
  dsimp only at hw
  by_cases hvc : acc.validCurves = []
  · left
    refine ⟨hvc, ?_⟩
    rw [if_neg (by simpa using hvc)] at hw
    injection hw with h1 h2
    rw [← h2]
    simp [writeDisk]
  · right
    refine ⟨hvc, ?_⟩
    rw [if_pos (by simpa using hvc)] at hw
    cases hexp : exportOk with
    | false => rw [hexp] at hw; simp at hw
    | true =>
      rw [hexp] at hw
      simp only [if_true] at hw
      injection hw with h1 h2
      refine ⟨(((writeDisk acc.st (path ++ "/pose.json")
          (DiskFile.poseJson acc.obj.metadata)).scene.curveNodes.filter
            (fun c => c.name ∈ acc.validCurves)).map
          (fun c => (c.name, c.curve.keys))), ?_⟩
      rw [← h2]
      simp [writeDisk]

/-! ## Claim C4 -/

/-- C4: confirmed.  A successful `Blendshape.save(path, ...)` starting
from an empty disk always writes the JSON file `pose.json` under `path`
(carrying the transfer object's metadata), and writes the native scene
fragment — named `animation.mb` when the effective file type is
`mayaBinary`, `animation.ma` otherwise — under `path` if and only if at
least one valid animation curve was captured (`validCurves` non-empty). -/
theorem C4_save_writes_pose_json_and_conditional_maya_file
    (self : BlendshapeObj) (st0 : MayaState) (path : String)
    (time : Option (Option Int × Option Int)) (sampleBy : Int)
    (fileType : String) (bake exportOk : Bool) (out : SaveAcc)
    (hok : Blendshape.save self st0 path time sampleBy fileType bake exportOk
      = (none, out))
    (hdisk : st0.disk = []) :
    ((path ++ "/pose.json", DiskFile.poseJson out.obj.metadata) ∈ out.st.disk)
    ∧ ((∃ cs, (path ++ "/" ++ animationFileName (effectiveFileType fileType),
          DiskFile.mayaExport cs) ∈ out.st.disk)
        ↔ ¬ out.validCurves = []) := by
  obtain ⟨sF, eR, hr, hval, hse, hdur, hbody⟩ :=
    save_ok_cases self st0 path time sampleBy fileType bake exportOk out hok
  obtain ⟨hwnone, hout⟩ :=
    saveBody_ok_spec self st0 path sF eR sampleBy (effectiveFileType fileType)
      bake exportOk out hbody
  rcases hwrite : saveWrite path (effectiveFileType fileType) exportOk
      (saveAccOf self st0 sF eR sampleBy bake) with ⟨werr, wst⟩
  have hw' : saveWrite path (effectiveFileType fileType) exportOk
      (saveAccOf self st0 sF eR sampleBy bake) = (none, wst) := by
    rw [hwrite]
    rw [hwrite] at hwnone
    simp only at hwnone
    rw [hwnone]
  have hcases := saveWrite_ok_disk_cases path (effectiveFileType fileType)
    exportOk (saveAccOf self st0 sF eR sampleBy bake) wst hw'
  have houtdisk : out.st.disk = wst.disk := by
    rw [hout]
    simp only
    rw [saveFinally_disk, hw']
  have houtvc : out.validCurves
      = (saveAccOf self st0 sF eR sampleBy bake).validCurves := by
    rw [hout]
  have houtmeta : out.obj.metadata
      = (saveAccOf self st0 sF eR sampleBy bake).obj.metadata := by
    rw [hout]
  have haccdisk := saveAccOf_st_disk self st0 sF eR sampleBy bake
  rw [hdisk] at haccdisk
  rcases hcases with ⟨hvc, hd⟩ | ⟨hvc, cs, hd⟩
  · constructor
    · rw [houtdisk, hd, haccdisk, houtmeta]
      simp
    · constructor
      · intro hmem
        exfalso
        obtain ⟨cs, hcs⟩ := hmem
        rw [houtdisk, hd, haccdisk] at hcs
        simp at hcs
      · intro hnvc
        exact absurd (houtvc ▸ hvc) hnvc
  · constructor
    · rw [houtdisk, hd, haccdisk, houtmeta]
      simp
    · constructor
      · intro _
        rw [houtvc]
        exact hvc
      · intro _
        refine ⟨cs, ?_⟩
        rw [houtdisk, hd, haccdisk]
        simp

/-! ## Claim C3 -/

theorem saveWrite_snd_undo (path ft : String) (exportOk : Bool) (acc : SaveAcc) :
    (saveWrite path ft exportOk acc).2.undoSnapshot = acc.st.undoSnapshot := by
  unfold saveWrite
  dsimp only
  by_cases hvc : ¬ acc.validCurves = []
  · rw [if_pos hvc]
    cases exportOk <;> rfl
  · rw [if_neg hvc]
    rfl

theorem saveBody_snd_spec (self : BlendshapeObj) (st0 : MayaState)
    (path : String) (sF eR sb : Int) (ft : String) (bake exportOk : Bool) :
    (saveBody self st0 path sF eR sb ft bake exportOk).2.st
        = saveFinally bake (saveAccOf self st0 sF eR sb bake)
            (saveWrite path ft exportOk (saveAccOf self st0 sF eR sb bake)).2
    ∧ (saveBody self st0 path sF eR sb ft bake exportOk).2.deleteObjects
        = (saveAccOf self st0 sF eR sb bake).deleteObjects := by
  unfold saveBody
  dsimp only
  split <;> exact ⟨rfl, rfl⟩

theorem save_snd_spec (self : BlendshapeObj) (st0 : MayaState) (path : String)
    (time : Option (Option Int × Option Int)) (sampleBy : Int) (ft : String)
    (bake exportOk : Bool) :
    ((Blendshape.save self st0 path time sampleBy ft bake exportOk).2
        = { st := st0, obj := self, deleteObjects := [], validCurves := [] })
    ∨ (∃ sF eR,
        (Blendshape.save self st0 path time sampleBy ft bake exportOk).2
          = (saveBody self st0 path sF eR sampleBy (effectiveFileType ft)
              bake exportOk).2) := by
  unfold Blendshape.save
  dsimp only
  cases hv : validateAnimLayers st0.scene.selectedAnimLayers with
  | some msg => left; rfl
  | none =>
    rcases hr : resolveTime st0.scene self.objectsList time with ⟨so, eo⟩
    cases so with
    | none => left; rfl
    | some sF =>
      cases eo with
      | none => left; rfl
      | some eR =>
        dsimp only
        by_cases hse : sF ≥ eR
        · rw [if_pos hse]; left; rfl
        · rw [if_neg hse]
          by_cases hdur : getDurationFromNodes st0.scene self.objectsList ≤ 0
          · rw [if_pos hdur]; left; rfl
          · rw [if_neg hdur]; right; exact ⟨sF, eR, rfl⟩

theorem deleteNodes_lookup_none (st : MayaState) (names : List NodeName)
    (n : NodeName) (hn : n ∈ names) :
    lookupObject (deleteNodes st names).scene n = none
    ∧ lookupCurveNode (deleteNodes st names).scene n = none := by
  constructor
  · rw [lookupObject, List.find?_eq_none]
    intro x hx
    simp only [deleteNodes, setScene] at hx
    have hmem := (List.mem_filter.mp hx).2
    intro hxe
    have hxn : x.name = n := by simpa using hxe
    rw [hxn] at hmem
    simp [hn] at hmem
  · rw [lookupCurveNode, List.find?_eq_none]
    intro x hx
    simp only [deleteNodes, setScene] at hx
    have hmem := (List.mem_filter.mp hx).2
    intro hxe
    have hxn : x.name = n := by simpa using hxe
    rw [hxn] at hmem
    simp [hn] at hmem

/-- C3: confirmed.  With `bakeConnected=True`, `Blendshape.save` opens an
undo chunk before baking and the `finally` block closes it and calls
`undo`, so whether the body succeeds or the export raises, the scene's
connection state after `save` equals the state before the bake.  With
`bakeConnected=False`, the `finally` block instead deletes every helper
node recorded in `deleteObjects` (the duplicated transforms and renamed
curves), so none of them remains in the scene. -/
theorem C3_save_finally_restores_connections_or_deletes_helpers
    (self : BlendshapeObj) (st0 : MayaState) (path : String)
    (time : Option (Option Int × Option Int)) (sampleBy : Int)
    (fileType : String) (bake exportOk : Bool) :
    (bake = true →
      (Blendshape.save self st0 path time sampleBy fileType bake
        exportOk).2.st.scene.connections = st0.scene.connections)
    ∧ (bake = false →
      ∀ n, n ∈ (Blendshape.save self st0 path time sampleBy fileType bake
          exportOk).2.deleteObjects →
        lookupObject (Blendshape.save self st0 path time sampleBy fileType
          bake exportOk).2.st.scene n = none
        ∧ lookupCurveNode (Blendshape.save self st0 path time sampleBy
            fileType bake exportOk).2.st.scene n = none) := by
  rcases save_snd_spec self st0 path time sampleBy fileType bake exportOk with
    hout | ⟨sF, eR, hout⟩
  · rw [hout]
    constructor
    · intro _; rfl
    · intro _ n hn; simp at hn
  · rw [hout]
    obtain ⟨hst, hdel⟩ := saveBody_snd_spec self st0 path sF eR sampleBy
      (effectiveFileType fileType) bake exportOk
    rw [hst, hdel]
    constructor
    · intro hbake
      subst hbake
      unfold saveFinally
      simp only [if_true]
      unfold undoCmd undoCloseChunk
      rw [saveWrite_snd_undo, saveAccOf_st_undo_of_bake]
      rfl
    · intro hbake n hn
      subst hbake
      unfold saveFinally
      simp only [Bool.false_eq_true, if_false]
      by_cases hdel0 :
          (saveAccOf self st0 sF eR sampleBy false).deleteObjects = []
      · rw [hdel0] at hn; simp at hn
      · rw [if_pos (by simpa using hdel0)]
        exact deleteNodes_lookup_none _ _ _ hn

/-! ## Claim C10 -/

/-- The relation between two consecutive `anim.load` calls issued by
`loadBlendshape`: the second call's start frame advances past the end of
the first animation as placed (its start plus its duration) by the
effective spacing, and in particular is strictly greater than that end. -/
def seqAdvances (spacing : Int) (c1 c2 : LoadCall) : Prop :=
  ∃ s, c1.startFrame = some s
    ∧ c2.startFrame = some (s + (c1.animEnd - c1.animStart) + spacing)
    ∧ s + (c1.animEnd - c1.animStart)
        < s + (c1.animEnd - c1.animStart) + spacing

/-- Invariant carried through the `loadBlendshape` loop. -/
def LoadInv (eff : Int) (acc : LoadAcc) : Prop :=
  List.Chain' (seqAdvances eff) acc.calls
  ∧ (acc.isFirstAnim = true → acc.calls = [])
  ∧ (acc.isFirstAnim = false → ∃ s', acc.startFrame = some s'
      ∧ ∀ c, acc.calls.getLast? = some c →
          ∃ s, c.startFrame = some s
            ∧ s' = s + (c.animEnd - c.animStart) + eff)

theorem loadStep_inv (fetch : String → AnimFile) (eff : Int) (heff : 1 ≤ eff)
    (acc : LoadAcc) (p : String) (hinv : LoadInv eff acc) :
    LoadInv eff (loadStep fetch eff acc p) := by
  obtain ⟨hchain, hfirst, hlast⟩ := hinv
  unfold loadStep
  dsimp only
  unfold LoadInv
  dsimp only
  by_cases hf : acc.isFirstAnim = true
  · have hcalls := hfirst hf
    obtain ⟨s0, hs0⟩ : ∃ s0,
        (if acc.startFrame = none ∧ acc.isFirstAnim = true
          then some ((fetch p).startFrame) else acc.startFrame) = some s0 := by
      cases hsf : acc.startFrame with
      | none => exact ⟨(fetch p).startFrame, if_pos ⟨rfl, hf⟩⟩
      | some s0 => exact ⟨s0, by rw [if_neg (by simp)]⟩
    rw [hs0, hcalls]
    refine ⟨by simp, by intro h; simp at h, fun _ => ?_⟩
    refine ⟨s0 + ((fetch p).endFrame - (fetch p).startFrame) + eff, by simp, ?_⟩
    intro c hc
    simp only [List.nil_append, List.getLast?_concat] at hc
    injection hc with hc
    rw [← hc]
    exact ⟨s0, rfl, rfl⟩
  · have hf' : acc.isFirstAnim = false := by
      cases hb : acc.isFirstAnim
      · rfl
      · exact absurd hb hf
    obtain ⟨s', hs', hlastprop⟩ := hlast hf'
    rw [hs']
    rw [if_neg (show ¬ ((some s' : Option Int) = none
        ∧ acc.isFirstAnim = true) by simp)]
    refine ⟨?_, by intro h; simp at h, fun _ => ?_⟩
    · rw [List.chain'_append]
      refine ⟨hchain, by simp, ?_⟩
      intro x hx y hy
      simp only [List.head?_cons, Option.mem_def] at hy
      injection hy with hy
      obtain ⟨s, hsx, hrel⟩ := hlastprop x hx
      rw [← hy]
      refine ⟨s, hsx, ?_, by omega⟩
      dsimp only
      rw [← hrel]
    · refine ⟨s' + ((fetch p).endFrame - (fetch p).startFrame) + eff,
        by simp, ?_⟩
      intro c hc
      rw [List.getLast?_concat] at hc
      injection hc with hc
      rw [← hc]
      exact ⟨s', rfl, rfl⟩

theorem foldl_loadStep_inv (fetch : String → AnimFile) (eff : Int)
    (heff : 1 ≤ eff) :
    ∀ (ps : List String) (acc : LoadAcc), LoadInv eff acc →
      LoadInv eff (ps.foldl (loadStep fetch eff) acc) := by
  intro ps
  induction ps with
  | nil => intro acc h; exact h
  | cons p t ih =>
    intro acc h
    rw [List.foldl_cons]
    exact ih _ (loadStep_inv fetch eff heff acc p h)

/-- C10: confirmed.  `loadBlendshape` clamps any spacing below 1 up to 1,
and with the effective spacing the sequence of issued `anim.load` calls
satisfies: each subsequent call's start frame equals the previous call's
start frame plus the previous animation's duration plus the effective
spacing, hence is strictly greater than the end frame of the previously
placed animation. -/
theorem C10_load_spacing_clamped_and_sequence_advances (path : String)
    (paths : List String) (fetch : String → AnimFile) (spacing : Int)
    (option : Option String) (startFrame : Option Int) (currentTime : Bool)
    (currentTimeVal : Int) :
    1 ≤ (if spacing < 1 then 1 else spacing)
    ∧ List.Chain' (seqAdvances (if spacing < 1 then 1 else spacing))
        (loadBlendshape path paths fetch spacing option startFrame
          currentTime currentTimeVal) := by
  have heff : 1 ≤ (if spacing < 1 then 1 else spacing) := by
    by_cases h : spacing < 1
    · simp [h]
    · simp [h]; omega
  refine ⟨heff, ?_⟩
  unfold loadBlendshape
  dsimp only
  refine (foldl_loadStep_inv fetch _ heff paths _ ?_).1
  refine ⟨by simp [List.Chain'], fun _ => rfl, ?_⟩
  intro h; simp at h

/-! ## Claim C5: range invariants for the exported curves -/

/-- Every Maya-generated "CURVE" node in the scene holds keys inside
`[sF, eF)` only. -/
def KeysBounded (sF eF : Int) (sc : Scene) : Prop :=
  ∀ cn ∈ sc.curveNodes, cn.name.isCurveGen = true →
    ∀ k ∈ cn.curve.keys, sF ≤ k ∧ k < eF

/-- Every Maya-generated object's attribute-curve map points at
Maya-generated "CURVE" nodes only. -/
def GenMapsGen (sc : Scene) : Prop :=
  ∀ o ∈ sc.objects, o.name.isCurveGen = true →
    ∀ q ∈ o.attrCurveMap, (q.2).isCurveGen = true

/-- Invariant of the save loop. -/
def SaveInv (sF eF : Int) (acc : SaveAcc) : Prop :=
  KeysBounded sF eF acc.st.scene ∧ GenMapsGen acc.st.scene
  ∧ ∀ v ∈ acc.validCurves, v.isCurveGen = true

/-- The scene contains no node carrying a Maya-generated "CURVE" name —
true of any user scene, since "CURVE##" names are only minted by `save`
itself. -/
def CleanScene (sc : Scene) : Prop :=
  (∀ cn ∈ sc.curveNodes, cn.name.isCurveGen = false)
  ∧ (∀ o ∈ sc.objects, o.name.isCurveGen = false)

theorem lookupObject_mem (s : Scene) (n : NodeName) (o : MayaObject)
    (h : lookupObject s n = some o) : o ∈ s.objects ∧ o.name = n := by
  unfold lookupObject at h
  exact ⟨List.mem_of_find?_eq_some h, by simpa using List.find?_some h⟩

theorem lookupCurveNode_mem (s : Scene) (n : NodeName) (c : CurveNode)
    (h : lookupCurveNode s n = some c) : c ∈ s.curveNodes ∧ c.name = n := by
  unfold lookupCurveNode at h
  exact ⟨List.mem_of_find?_eq_some h, by simpa using List.find?_some h⟩

theorem lookupAssoc_mem {α : Type} (l : List (String × α)) (k : String) (v : α)
    (h : lookupAssoc l k = some v) : (k, v) ∈ l := by
  unfold lookupAssoc at h
  cases hf : l.find? (fun p => p.1 = k) with
  | none => rw [hf] at h; simp at h
  | some q =>
    rw [hf] at h
    have h2 : q.2 = v := by simpa using h
    have hql := List.mem_of_find?_eq_some hf
    have hqk : q.1 = k := by simpa using List.find?_some hf
    have hq : q = (k, v) := by
      cases q with
      | mk q1 q2 =>
        simp only at hqk h2
        rw [hqk, h2]
    rw [← hq]
    exact hql

theorem mem_setAssoc {α : Type} (l : List (String × α)) (k : String) (v : α)
    (q : String × α) (hq : q ∈ setAssoc l k v) : q ∈ l ∨ q = (k, v) := by
  induction l with
  | nil =>
    unfold setAssoc at hq
    exact Or.inr (by simpa using hq)
  | cons p t ih =>
    unfold setAssoc at hq
    by_cases hp : p.1 = k
    · rw [if_pos hp] at hq
      rcases List.mem_cons.mp hq with h | h
      · exact Or.inr h
      · exact Or.inl (List.mem_cons_of_mem _ h)
    · rw [if_neg hp] at hq
      rcases List.mem_cons.mp hq with h | h
      · exact Or.inl (h ▸ List.mem_cons_self _ _)
      · rcases ih h with h' | h'
        · exact Or.inl (List.mem_cons_of_mem _ h')
        · exact Or.inr h'

theorem copyKey_bounded (s : Scene) (n : NodeName) (sF eF : Int) :
    ∀ p ∈ copyKey s n sF eF, ∀ k ∈ p.2, sF ≤ k ∧ k < eF := by
  intro p hp k hk
  unfold copyKey at hp
  split at hp
  · simp at hp
  · rw [List.mem_filterMap] at hp
    obtain ⟨q, hq, hqe⟩ := hp
    dsimp only at hqe
    split at hqe
    · simp at hqe
    · injection hqe with hqe
      rw [← hqe] at hk
      simp only at hk
      have := (List.mem_filter.mp hk).2
      exact of_decide_eq_true this

theorem gen_curve_isCurveGen (k : Nat) :
    (NodeName.gen "CURVE" k).isCurveGen = true := rfl

theorem gen_bake_not_curveGen (k : Nat) :
    (NodeName.gen "BAKE" k).isCurveGen = false := rfl

theorem pasteKeyStep_inv (dup : NodeName) (st : MayaState)
    (p : String × List Int) (sF eF : Int)
    (hJ : KeysBounded sF eF st.scene) (hM : GenMapsGen st.scene)
    (hp : ∀ k ∈ p.2, sF ≤ k ∧ k < eF) :
    KeysBounded sF eF (pasteKeyStep dup st p).scene
    ∧ GenMapsGen (pasteKeyStep dup st p).scene := by
  unfold pasteKeyStep freshName setScene
  dsimp only
  constructor
  · intro cn hcn hgen k hk
    rw [List.mem_append] at hcn
    rcases hcn with h | h
    · exact hJ cn h hgen k hk
    · have hcn' := List.mem_singleton.mp h
      rw [hcn'] at hk
      exact hp k hk
  · intro o ho hgen q hq
    rw [List.mem_map] at ho
    obtain ⟨o0, ho0, hoe⟩ := ho
    by_cases hname : o0.name = dup
    · rw [if_pos hname] at hoe
      rw [← hoe] at hgen hq
      simp only at hgen hq
      rcases mem_setAssoc _ _ _ _ hq with h | h
      · exact hM o0 ho0 hgen q h
      · rw [h]
        rfl
    · rw [if_neg hname] at hoe
      rw [← hoe] at hgen hq
      exact hM o0 ho0 hgen q hq

theorem pasteKey_inv (dup : NodeName) (sF eF : Int) :
    ∀ (clip : List (String × List Int)) (st : MayaState),
      KeysBounded sF eF st.scene → GenMapsGen st.scene →
      (∀ p ∈ clip, ∀ k ∈ p.2, sF ≤ k ∧ k < eF) →
      KeysBounded sF eF (pasteKey st dup clip).scene
      ∧ GenMapsGen (pasteKey st dup clip).scene := by
  intro clip
  induction clip with
  | nil => intro st hJ hM _; exact ⟨hJ, hM⟩
  | cons p t ih =>
    intro st hJ hM hp
    unfold pasteKey at ih ⊢
    rw [List.foldl_cons]
    obtain ⟨hJ', hM'⟩ := pasteKeyStep_inv dup st p sF eF hJ hM
      (hp p (List.mem_cons_self _ _))
    exact ih _ hJ' hM' (fun q hq => hp q (List.mem_cons_of_mem _ hq))

theorem duplicate_fst (st : MayaState) (n : NodeName) :
    (duplicate st n).1 = NodeName.gen "CURVE" st.counter := by
  unfold duplicate
  dsimp only
  split <;> rfl

theorem duplicate_inv (st : MayaState) (n : NodeName) (sF eF : Int)
    (hJ : KeysBounded sF eF st.scene) (hM : GenMapsGen st.scene) :
    KeysBounded sF eF (duplicate st n).2.scene
    ∧ GenMapsGen (duplicate st n).2.scene := by
  unfold duplicate freshName setScene
  dsimp only
  split
  · exact ⟨hJ, hM⟩
  · constructor
    · intro cn hcn hgen k hk
      exact hJ cn hcn hgen k hk
    · intro o ho hgen q hq
      simp only at ho
      rw [List.mem_append] at ho
      rcases ho with h | h
      · exact hM o h hgen q hq
      · have ho' := by simpa using h
        rw [ho'] at hq
        simp at hq

theorem renameCurve_fst (st : MayaState) (old : NodeName) :
    (renameCurve st old).1 = NodeName.gen "CURVE" st.counter := rfl

theorem renameCurve_keysBounded (st : MayaState) (old : NodeName) (sF eF : Int)
    (hJ : KeysBounded sF eF st.scene) (hold : old.isCurveGen = true) :
    KeysBounded sF eF (renameCurve st old).2.scene := by
  unfold renameCurve freshName setScene
  dsimp only
  intro cn hcn hgen k hk
  rw [List.mem_map] at hcn
  obtain ⟨c0, hc0, hce⟩ := hcn
  by_cases hname : c0.name = old
  · rw [if_pos hname] at hce
    rw [← hce] at hk
    simp only at hk
    exact hJ c0 hc0 (hname ▸ hold) k hk
  · rw [if_neg hname] at hce
    rw [← hce] at hgen hk
    exact hJ c0 hc0 hgen k hk

theorem renameCurve_genMapsGen (st : MayaState) (old : NodeName)
    (hM : GenMapsGen st.scene) :
    GenMapsGen (renameCurve st old).2.scene := hM

theorem mapCurveNode_keysBounded (st : MayaState) (n : NodeName)
    (f : AnimCurve → AnimCurve) (sF eF : Int)
    (hJ : KeysBounded sF eF st.scene)
    (hf : ∀ c k, k ∈ (f c).keys → k ∈ c.keys) :
    KeysBounded sF eF (mapCurveNode st n f).scene := by
  unfold mapCurveNode setScene
  intro cn hcn hgen k hk
  dsimp only at hcn
  rw [List.mem_map] at hcn
  obtain ⟨c0, hc0, hce⟩ := hcn
  by_cases hname : c0.name = n
  · rw [if_pos hname] at hce
    rw [← hce] at hgen hk
    simp only at hgen hk
    exact hJ c0 hc0 hgen k (hf _ _ hk)
  · rw [if_neg hname] at hce
    rw [← hce] at hgen hk
    exact hJ c0 hc0 hgen k hk

theorem mapCurveNode_genMapsGen (st : MayaState) (n : NodeName)
    (f : AnimCurve → AnimCurve) (hM : GenMapsGen st.scene) :
    GenMapsGen (mapCurveNode st n f).scene := hM

theorem cutKey_keysBounded (st : MayaState) (n : NodeName) (a b sF eF : Int)
    (hJ : KeysBounded sF eF st.scene) :
    KeysBounded sF eF (cutKey st n a b).scene := by
  unfold cutKey
  exact mapCurveNode_keysBounded st n _ sF eF hJ
    (fun c k hk => (List.mem_filter.mp hk).1)

theorem cutKey_genMapsGen (st : MayaState) (n : NodeName) (a b : Int)
    (hM : GenMapsGen st.scene) : GenMapsGen (cutKey st n a b).scene := hM

theorem copyCurveDisplayAttrs_keysBounded (st : MayaState) (src dst : NodeName)
    (sF eF : Int) (hJ : KeysBounded sF eF st.scene) :
    KeysBounded sF eF (copyCurveDisplayAttrs st src dst).scene := by
  unfold copyCurveDisplayAttrs
  split
  · exact hJ
  · exact mapCurveNode_keysBounded st dst _ sF eF hJ (fun c k hk => hk)

theorem copyCurveDisplayAttrs_genMapsGen (st : MayaState) (src dst : NodeName)
    (hM : GenMapsGen st.scene) :
    GenMapsGen (copyCurveDisplayAttrs st src dst).scene := by
  unfold copyCurveDisplayAttrs
  split
  · exact hM
  · exact mapCurveNode_genMapsGen st dst _ hM

theorem animCurve_gen_of_M (s : Scene) (dn : NodeName) (a : Option String)
    (c : NodeName) (hM : GenMapsGen s) (hdn : dn.isCurveGen = true)
    (hc : Attribute.animCurve s ⟨dn, a⟩ = some c) : c.isCurveGen = true := by
  unfold Attribute.animCurve at hc
  cases a with
  | none => simp at hc
  | some t =>
    simp only [Option.bind] at hc
    cases hob : lookupObject s dn with
    | none => rw [hob] at hc; simp at hc
    | some o =>
      rw [hob] at hc
      simp only at hc
      obtain ⟨ho, hname⟩ := lookupObject_mem s dn o hob
      have hmem := lookupAssoc_mem o.attrCurveMap t c hc
      exact hM o ho (hname ▸ hdn) (t, c) hmem

theorem processAttr_inv (sF eF : Int) (sn : String) (dn : NodeName)
    (acc : SaveAcc) (a : Option String)
    (hinv : SaveInv sF eF acc) (hdn : dn.isCurveGen = true) :
    SaveInv sF eF (processAttr sF eF sn dn acc a) := by
  obtain ⟨hJ, hM, hV⟩ := hinv
  unfold processAttr
  cases hc : Attribute.animCurve acc.st.scene ⟨dn, a⟩ with
  | none => exact ⟨hJ, hM, hV⟩
  | some d0 =>
    dsimp only
    have hd0 : d0.isCurveGen = true := animCurve_gen_of_M _ _ _ _ hM hdn hc
    have hJ1 := renameCurve_keysBounded acc.st d0 sF eF hJ hd0
    have hM1 := renameCurve_genMapsGen acc.st d0 hM
    have hr1 : (renameCurve acc.st d0).1.isCurveGen = true := rfl
    have hVnew : ∀ v ∈ acc.validCurves ++ [(renameCurve acc.st d0).1],
        v.isCurveGen = true := by
      intro v hv
      rcases List.mem_append.mp hv with h | h
      · exact hV v h
      · rw [List.mem_singleton.mp h]; exact hr1
    split
    · split
      · exact ⟨cutKey_keysBounded _ _ _ _ _ _
                (cutKey_keysBounded _ _ _ _ _ _ hJ1),
               cutKey_genMapsGen _ _ _ _ (cutKey_genMapsGen _ _ _ _ hM1),
               hVnew⟩
      · rename_i src hsrc
        have hJ2 := copyCurveDisplayAttrs_keysBounded (renameCurve acc.st d0).2
          src (renameCurve acc.st d0).1 sF eF hJ1
        have hM2 := copyCurveDisplayAttrs_genMapsGen (renameCurve acc.st d0).2
          src (renameCurve acc.st d0).1 hM1
        exact ⟨cutKey_keysBounded _ _ _ _ _ _
                (cutKey_keysBounded _ _ _ _ _ _ hJ2),
               cutKey_genMapsGen _ _ _ _ (cutKey_genMapsGen _ _ _ _ hM2),
               hVnew⟩
    · split
      · exact ⟨hJ1, hM1, hV⟩
      · rename_i src hsrc
        have hJ2 := copyCurveDisplayAttrs_keysBounded (renameCurve acc.st d0).2
          src (renameCurve acc.st d0).1 sF eF hJ1
        have hM2 := copyCurveDisplayAttrs_genMapsGen (renameCurve acc.st d0).2
          src (renameCurve acc.st d0).1 hM1
        exact ⟨hJ2, hM2, hV⟩

theorem foldl_processAttr_inv (sF eF : Int) (sn : String) (dn : NodeName)
    (hdn : dn.isCurveGen = true) :
    ∀ (as : List (Option String)) (acc : SaveAcc), SaveInv sF eF acc →
      SaveInv sF eF (as.foldl (processAttr sF eF sn dn) acc) := by
  intro as
  induction as with
  | nil => intro acc h; exact h
  | cons a t ih =>
    intro acc h
    rw [List.foldl_cons]
    exact ih _ (processAttr_inv sF eF sn dn acc a h hdn)

theorem processObject_inv (sF eF : Int) (acc : SaveAcc) (name : String)
    (hinv : SaveInv sF eF acc) : SaveInv sF eF (processObject sF eF acc name) := by
  obtain ⟨hJ, hM, hV⟩ := hinv
  unfold processObject
  dsimp only
  split
  · exact ⟨hJ, hM, hV⟩
  · have hdupgen : (duplicate acc.st (.user name)).1.isCurveGen = true := by
      rw [duplicate_fst]
      rfl
    obtain ⟨hJ1, hM1⟩ := duplicate_inv acc.st (.user name) sF eF hJ hM
    obtain ⟨hJ2, hM2⟩ := pasteKey_inv (duplicate acc.st (.user name)).1 sF eF
      (copyKey acc.st.scene (.user name) sF eF) (duplicate acc.st (.user name)).2
      hJ1 hM1 (copyKey_bounded acc.st.scene (.user name) sF eF)
    exact foldl_processAttr_inv sF eF name (duplicate acc.st (.user name)).1
      hdupgen _ _ ⟨hJ2, hM2, hV⟩

theorem foldl_processObject_inv (sF eF : Int) :
    ∀ (names : List String) (acc : SaveAcc), SaveInv sF eF acc →
      SaveInv sF eF (names.foldl (processObject sF eF) acc) := by
  intro names
  induction names with
  | nil => intro acc h; exact h
  | cons n t ih =>
    intro acc h
    rw [List.foldl_cons]
    exact ih _ (processObject_inv sF eF acc n h)

theorem bakeAttrStep_inv (n : String) (a b sb : Int) (st : MayaState)
    (attr : String) (sF eF : Int)
    (hJ : KeysBounded sF eF st.scene) (hM : GenMapsGen st.scene) :
    KeysBounded sF eF (bakeAttrStep n a b sb st attr).scene
    ∧ GenMapsGen (bakeAttrStep n a b sb st attr).scene := by
  unfold bakeAttrStep freshName setScene
  dsimp only
  constructor
  · intro cn hcn hgen k hk
    rw [List.mem_append] at hcn
    rcases hcn with h | h
    · exact hJ cn h hgen k hk
    · have hcn' := List.mem_singleton.mp h
      rw [hcn'] at hgen
      simp [NodeName.isCurveGen] at hgen
  · intro o ho hgen q hq
    rw [List.mem_map] at ho
    obtain ⟨o0, ho0, hoe⟩ := ho
    by_cases hname : o0.name = NodeName.user n
    · rw [if_pos hname] at hoe
      rw [← hoe] at hgen
      simp only at hgen
      rw [hname] at hgen
      simp [NodeName.isCurveGen] at hgen
    · rw [if_neg hname] at hoe
      rw [← hoe] at hgen hq
      exact hM o0 ho0 hgen q hq

theorem bakeObjStep_inv (a b sb : Int) (st : MayaState) (n : String)
    (sF eF : Int) (hJ : KeysBounded sF eF st.scene) (hM : GenMapsGen st.scene) :
    KeysBounded sF eF (bakeObjStep a b sb st n).scene
    ∧ GenMapsGen (bakeObjStep a b sb st n).scene := by
  unfold bakeObjStep
  split
  · exact ⟨hJ, hM⟩
  · rename_i o _
    have : ∀ (attrs : List String) (st : MayaState),
        KeysBounded sF eF st.scene → GenMapsGen st.scene →
        KeysBounded sF eF ((attrs.foldl (bakeAttrStep n a b sb) st)).scene
        ∧ GenMapsGen ((attrs.foldl (bakeAttrStep n a b sb) st)).scene := by
      intro attrs
      induction attrs with
      | nil => intro st hJ' hM'; exact ⟨hJ', hM'⟩
      | cons x t ih =>
        intro st hJ' hM'
        rw [List.foldl_cons]
        obtain ⟨hJ'', hM''⟩ := bakeAttrStep_inv n a b sb st x sF eF hJ' hM'
        exact ih _ hJ'' hM''
    exact this o.drivenAttrs st hJ hM

theorem bakeConnectedCmd_inv (a b sb : Int) (sF eF : Int) :
    ∀ (objs : List String) (st : MayaState),
      KeysBounded sF eF st.scene → GenMapsGen st.scene →
      KeysBounded sF eF (bakeConnectedCmd st objs a b sb).scene
      ∧ GenMapsGen (bakeConnectedCmd st objs a b sb).scene := by
  intro objs
  induction objs with
  | nil => intro st hJ hM; exact ⟨hJ, hM⟩
  | cons n t ih =>
    intro st hJ hM
    unfold bakeConnectedCmd at ih ⊢
    rw [List.foldl_cons]
    obtain ⟨hJ', hM'⟩ := bakeObjStep_inv a b sb st n sF eF hJ hM
    exact ih _ hJ' hM'

theorem saveAccOf_inv (self : BlendshapeObj) (st0 : MayaState)
    (sF eR sb : Int) (bake : Bool) (hclean : CleanScene st0.scene) :
    SaveInv sF (eR + 1) (saveAccOf self st0 sF eR sb bake) := by
  have hJ0 : KeysBounded sF (eR + 1) st0.scene := by
    intro cn hcn hgen k hk
    rw [hclean.1 cn hcn] at hgen
    simp at hgen
  have hM0 : GenMapsGen st0.scene := by
    intro o ho hgen q hq
    rw [hclean.2 o ho] at hgen
    simp at hgen
  unfold saveAccOf
  dsimp only
  apply foldl_processObject_inv
  cases bake with
  | false =>
    simp only [Bool.false_eq_true, if_false]
    exact ⟨hJ0, hM0, by intro v hv; simp at hv⟩
  | true =>
    simp only [if_true]
    obtain ⟨hJ1, hM1⟩ := bakeConnectedCmd_inv sF (eR + 1) sb sF (eR + 1) _
      (undoOpenChunk st0) hJ0 hM0
    exact ⟨hJ1, hM1, by intro v hv; simp at hv⟩

theorem saveWrite_ok_export_content (path ft : String) (exportOk : Bool)
    (acc : SaveAcc) (st' : MayaState)
    (hw : saveWrite path ft exportOk acc = (none, st'))
    (p : String) (cs : List (NodeName × List Int))
    (hdisk0 : acc.st.disk = [])
    (hmem : (p, DiskFile.mayaExport cs) ∈ st'.disk) :
    cs = ((acc.st.scene.curveNodes.filter
            (fun c => c.name ∈ acc.validCurves)).map
          (fun c => (c.name, c.curve.keys))) := by
  unfold saveWrite at hw
  dsimp only at hw
  by_cases hvc : acc.validCurves = []
  · rw [if_neg (by simpa using hvc)] at hw
    injection hw with h1 h2
    rw [← h2] at hmem
    simp [writeDisk, hdisk0] at hmem
  · rw [if_pos (by simpa using hvc)] at hw
    cases hexp : exportOk with
    | false => rw [hexp] at hw; simp at hw
    | true =>
      rw [hexp] at hw
      simp only [if_true] at hw
      injection hw with h1 h2
      rw [← h2] at hmem
      simp [writeDisk, hdisk0] at hmem
      exact hmem.2

/-- C5: confirmed.  Every curve exported by a successful
`Blendshape.save` over the caller's range `(s, e)` holds keys only inside
`[s, e]` — the range recorded in the metadata (see C7): the pasted keys
come from `copyKey` over `[s, e + 1)` with the upper bound excluded, and
the `cutKey` calls remove everything outside the range, so the written
scene fragment contains no key outside `[s, e]`.  The hypotheses ask that
the starting scene contains no Maya-generated "CURVE" node (true of any
user scene) and that the disk starts empty. -/
theorem C5_exported_curves_within_saved_range (self : BlendshapeObj)
    (st0 : MayaState) (path : String) (s e : Int) (sampleBy : Int)
    (fileType : String) (bake exportOk : Bool) (out : SaveAcc)
    (p : String) (cs : List (NodeName × List Int))
    (hclean : CleanScene st0.scene) (hdisk : st0.disk = [])
    (hok : Blendshape.save self st0 path (some (some s, some e)) sampleBy
      fileType bake exportOk = (none, out))
    (hmem : (p, DiskFile.mayaExport cs) ∈ out.st.disk) :
    ∀ c ∈ cs, ∀ k ∈ c.2, s ≤ k ∧ k ≤ e := by
  obtain ⟨sF, eR, hr, hval, hse, hdur, hbody⟩ :=
    save_ok_cases self st0 path _ sampleBy fileType bake exportOk out hok
  have hres : resolveTime st0.scene self.objectsList (some (some s, some e))
      = (some s, some e) := rfl
  have hr' := hres.symm.trans hr
  injection hr' with h1 h2
  injection h1 with h1
  injection h2 with h2
  subst h1; subst h2
  obtain ⟨hwnone, hout⟩ :=
    saveBody_ok_spec self st0 path s e sampleBy (effectiveFileType fileType)
      bake exportOk out hbody
  rcases hwrite : saveWrite path (effectiveFileType fileType) exportOk
      (saveAccOf self st0 s e sampleBy bake) with ⟨werr, wst⟩
  have hw' : saveWrite path (effectiveFileType fileType) exportOk
      (saveAccOf self st0 s e sampleBy bake) = (none, wst) := by
    rw [hwrite]
    rw [hwrite] at hwnone
    simp only at hwnone
    rw [hwnone]
  have houtdisk : out.st.disk = wst.disk := by
    rw [hout]
    simp only
    rw [saveFinally_disk, hw']
  have haccdisk := saveAccOf_st_disk self st0 s e sampleBy bake
  rw [hdisk] at haccdisk
  rw [houtdisk] at hmem
  have hcontent := saveWrite_ok_export_content path (effectiveFileType fileType)
    exportOk (saveAccOf self st0 s e sampleBy bake) wst hw' p cs haccdisk hmem
  obtain ⟨hJ, hM, hV⟩ := saveAccOf_inv self st0 s e sampleBy bake hclean
  intro c hc k hk
  rw [hcontent] at hc
  rw [List.mem_map] at hc
  obtain ⟨node, hnode, hce⟩ := hc
  have hnodemem := List.mem_filter.mp hnode
  have hvcmem : node.name ∈ (saveAccOf self st0 s e sampleBy bake).validCurves :=
    of_decide_eq_true hnodemem.2
  have hgen : node.name.isCurveGen = true := hV node.name hvcmem
  have hkeys : k ∈ node.curve.keys := by
    rw [← hce] at hk
    exact hk
  have hbound := hJ node hnodemem.1 hgen k hkeys
  omega

/-! ## Concrete witness fixtures -/

/-- A one-object test scene: `obj` has an animated attribute `tx` with
keys at frames 1 and 5, a driven attribute `ty`, and one incoming
connection. -/
def wCurve : CurveNode := { name := .user "c1", curve := { keys := [1, 5] } }

def wObj : MayaObject :=
  { name := .user "obj", nodeType := "transform",
    keyableAttrs := ["tx"], unlockedKeyableAttrs := ["tx"],
    drivenAttrs := ["ty"], attrCurveMap := [("tx", .user "c1")],
    attrInfo := [("tx", { typeName := "doubleLinear", value := some 3 })] }

def wScene : Scene :=
  { objects := [wObj], curveNodes := [wCurve],
    connections := [("driver.out", "obj.ty")] }

def wState : MayaState := { scene := wScene }

def wSelf : BlendshapeObj := { objectsList := ["obj"] }

/-- A blendShape node with three weights: index 0 aliased `smile`
(value 1), index 1 unaliased, index 2 aliased `frown` whose queried value
is `None`. -/
def wBlendObj : MayaObject :=
  { name := .user "Face", nodeType := "blendShape",
    blendAliases := [some "smile", none, some "frown"],
    attrInfo := [("smile", { typeName := "double", value := some 1 }),
                 ("frown", { typeName := "double", value := none })] }

def wBlendScene : Scene := { objects := [wBlendObj] }

/-- A state whose scene has two selected animation layers. -/
def wLayeredState : MayaState :=
  { scene := { objects := [],
               selectedAnimLayers := [{ name := "L1", locked := false },
                                      { name := "L2", locked := false }] } }

theorem C3_witness :
    ((Blendshape.save wSelf wState "/tmp/item" (some (some 1, some 5)) 1 ""
        true true).2.st.scene.connections = wState.scene.connections)
    ∧ (NodeName.gen "CURVE" 0
        ∈ (Blendshape.save wSelf wState "/tmp/item" (some (some 1, some 5)) 1 ""
            false true).2.deleteObjects)
    ∧ lookupObject (Blendshape.save wSelf wState "/tmp/item"
        (some (some 1, some 5)) 1 "" false true).2.st.scene
        (NodeName.gen "CURVE" 0) = none := by
  refine ⟨(C3_save_finally_restores_connections_or_deletes_helpers wSelf wState
    "/tmp/item" (some (some 1, some 5)) 1 "" true true).1 rfl, by decide, ?_⟩
  exact ((C3_save_finally_restores_connections_or_deletes_helpers wSelf wState
    "/tmp/item" (some (some 1, some 5)) 1 "" false true).2 rfl
    (NodeName.gen "CURVE" 0) (by decide)).1

theorem C4_witness :
    (Blendshape.save wSelf wState "/tmp/item" (some (some 1, some 5)) 1 ""
        false true
      = (none, (Blendshape.save wSelf wState "/tmp/item" (some (some 1, some 5))
          1 "" false true).2))
    ∧ wState.disk = []
    ∧ (("/tmp/item" ++ "/pose.json",
        DiskFile.poseJson (Blendshape.save wSelf wState "/tmp/item"
          (some (some 1, some 5)) 1 "" false true).2.obj.metadata)
        ∈ (Blendshape.save wSelf wState "/tmp/item" (some (some 1, some 5)) 1 ""
            false true).2.st.disk) := by
  refine ⟨by decide, rfl, ?_⟩
  exact (C4_save_writes_pose_json_and_conditional_maya_file wSelf wState
    "/tmp/item" (some (some 1, some 5)) 1 "" false true _ (by decide) rfl).1

theorem C5_witness :
    CleanScene wState.scene ∧ wState.disk = []
    ∧ (Blendshape.save wSelf wState "/tmp/item" (some (some 1, some 5)) 1 ""
        false true
      = (none, (Blendshape.save wSelf wState "/tmp/item" (some (some 1, some 5))
          1 "" false true).2))
    ∧ (("/tmp/item/animation.mb",
        DiskFile.mayaExport [(NodeName.gen "CURVE" 2, [1, 5])])
        ∈ (Blendshape.save wSelf wState "/tmp/item" (some (some 1, some 5)) 1 ""
            false true).2.st.disk)
    ∧ (∀ c ∈ [((NodeName.gen "CURVE" 2 : NodeName), ([1, 5] : List Int))],
        ∀ k ∈ c.2, 1 ≤ k ∧ k ≤ 5) := by
  refine ⟨⟨by decide, by decide⟩, rfl, by decide, by decide, ?_⟩
  exact C5_exported_curves_within_saved_range wSelf wState "/tmp/item" 1 5 1 ""
    false true
    (Blendshape.save wSelf wState "/tmp/item" (some (some 1, some 5)) 1 ""
      false true).2
    "/tmp/item/animation.mb" [(NodeName.gen "CURVE" 2, [1, 5])]
    ⟨by decide, by decide⟩ rfl (by decide) (by decide)

theorem C6_witness :
    lookupObject wBlendScene (.user "Face") = some wBlendObj
    ∧ wBlendObj.nodeType = BLEND_SHAPE_TYPE
    ∧ (getBlendshapeParamList wBlendScene (.user "Face")).length
        = weightSize wBlendScene (.user "Face")
    ∧ lookupAssoc (createObjectData wBlendScene [] "Face") "smile"
        = some { typeName := "double", value := some 1 } := by
  refine ⟨by decide, rfl, ?_, ?_⟩
  · exact (C6_blendshape_weights_stored_as_attributes wBlendScene [] "Face"
      wBlendObj (by decide) rfl).1
  · exact (C6_blendshape_weights_stored_as_attributes wBlendScene [] "Face"
      wBlendObj (by decide) rfl).2.2.2.2 "smile" 1 (by decide) (by decide)
      (by decide)

theorem C7_witness :
    (Blendshape.save wSelf wState "/tmp/item" (some (some 1, some 5)) 1 ""
        false true
      = (none, (Blendshape.save wSelf wState "/tmp/item" (some (some 1, some 5))
          1 "" false true).2))
    ∧ lookupAssoc (Blendshape.save wSelf wState "/tmp/item"
        (some (some 1, some 5)) 1 "" false true).2.obj.metadata "startFrame"
        = some 1
    ∧ lookupAssoc (Blendshape.save wSelf wState "/tmp/item"
        (some (some 1, some 5)) 1 "" false true).2.obj.metadata "endFrame"
        = some 5 := by
  refine ⟨by decide, ?_, ?_⟩
  · exact (C7_save_metadata_records_caller_range wSelf wState "/tmp/item" 1 5 1
      "" false true _ (by decide)).1
  · exact (C7_save_metadata_records_caller_range wSelf wState "/tmp/item" 1 5 1
      "" false true _ (by decide)).2

theorem C8_witness :
    validateAnimLayers wLayeredState.scene.selectedAnimLayers ≠ none
    ∧ ∃ msg, Blendshape.save wSelf wLayeredState "/tmp/item"
        (some (some 1, some 5)) 1 "" true true
      = (some msg, { st := wLayeredState, obj := wSelf, deleteObjects := [],
                     validCurves := [] }) := by
  refine ⟨by decide, ?_⟩
  exact C8_save_validation_errors_leave_state_unchanged wSelf wLayeredState
    "/tmp/item" (some (some 1, some 5)) 1 "" true true (Or.inl (by decide))

theorem C9_witness :
    lookupAssoc (createObjectData wScene [] "obj") "tx"
      = some { typeName := "doubleLinear", value := some 3 }
    ∧ (some 3 : Option Int) ≠ none := by
  refine ⟨by decide, ?_⟩
  have h := C9_createObjectData_never_stores_none wScene "obj" []
    (by intro k ev h; exact absurd h (by simp [lookupAssoc]))
    "tx" { typeName := "doubleLinear", value := some 3 } (by decide)
  exact h
